import Mathlib

/-!
A shallow embedding, in Lean 4, of the clone subsystem of the `find_tender`
repository (`backend/clone.py`, with the URL helpers it is instantiated with
from `backend/main.py`).  Upstream JSON documents are modelled by an inductive
`Json` type (numbers restricted to integers, which suffices for the records the
claims quantify over); wall-clock timestamps, which the code only embeds into
payloads and never branches on, are abstracted by fixed placeholder strings.
File-system state is modelled explicitly: a per-operation directory `OpDir`
holds the object store, the rotated event log and the checkpoint / status /
manifest files, and the process-wide `CLONE_OPERATIONS` dict together with the
`data/clones` tree forms a `SysState`.  The orchestration loop is a fuel-based
recursion whose run also yields the ordered trace of store operations it
performed, so that ordering guarantees (checkpoint-after-commit, frozen
filters) can be stated about real executions.
-/

/-- JSON values, as the opaque records mirrored by the clone subsystem.
Object fields keep their source order; numbers are modelled as integers. -/
inductive Json where
  | null : Json
  | bool : Bool → Json
  | num : Int → Json
  | str : String → Json
  | arr : List Json → Json
  | obj : List (String × Json) → Json
deriving Repr

/-- First binding of a key in a JSON object's field list (Python `dict.get`:
the dicts built by the code have unique keys). -/
def jsonLookup : Json → String → Option Json
  | .obj fs, k => (fs.find? (fun p => p.1 = k)).map (·.2)
  | _, _ => none

/-- Python `_safe_get(d, *keys)` from `backend/main.py`, specialised to the
two-key path `safe_get(data, "links", "next")` used by the clone loop. -/
def safe_get2 (d : Json) (k1 k2 : String) : Option Json :=
  match jsonLookup d k1 with
  | some inner => jsonLookup inner k2
  | none => none

/-- Coerce a JSON value to the string the Python code would pass around
(`None`/non-strings give `none`; the code only feeds strings here). -/
def asStr : Option Json → Option String
  | some (.str s) => some s
  | _ => none

/-- Python truthiness of an optional string (`if cursor:` etc.):
`None` and the empty string are falsy. -/
def truthyStr : Option String → Bool
  | none => false
  | some s => !(s == "")

/-- Two lowercase hex digits of a byte (used for `\u00XX` escapes). -/
def hexByte (n : Nat) : String :=
  String.mk [Nat.digitChar (n / 16 % 16), Nat.digitChar (n % 16)]

/-- JSON string-character escaping as `json.dumps(..., ensure_ascii=False)`
performs it: quote, backslash and control characters are escaped, everything
else is emitted verbatim. -/
def escapeJsonChar (c : Char) : String :=
  if c = '"' then "\\\""
  else if c = '\\' then "\\\\"
  else if c = '\n' then "\\n"
  else if c = '\t' then "\\t"
  else if c = '\r' then "\\r"
  else if c = '\x08' then "\\b"
  else if c = '\x0c' then "\\f"
  else if c.toNat < 32 then "\\u00" ++ hexByte c.toNat
  else String.singleton c

/-- A JSON string literal: quoted, characters escaped. -/
def jsonQuote (s : String) : String :=
  "\"" ++ String.join (s.toList.map escapeJsonChar) ++ "\""

mutual

/-- Serialize a JSON value with the given item and key separators, keys in
their stored order (the `sort_keys=True` variant pre-sorts with
`sortJsonKeys`). -/
def dumpJson (itemSep kvSep : String) : Json → String
  | .null => "null"
  | .bool b => if b then "true" else "false"
  | .num n => toString n
  | .str s => jsonQuote s
  | .arr xs => "[" ++ dumpJsonList itemSep kvSep xs ++ "]"
  | .obj fs => "\x7b" ++ dumpJsonFields itemSep kvSep fs ++ "\x7d"

/-- Serialize the elements of a JSON array, separated by `itemSep`. -/
def dumpJsonList (itemSep kvSep : String) : List Json → String
  | [] => ""
  | [x] => dumpJson itemSep kvSep x
  | x :: y :: xs => dumpJson itemSep kvSep x ++ itemSep ++ dumpJsonList itemSep kvSep (y :: xs)

/-- Serialize the fields of a JSON object, separated by `itemSep`, each key
and value joined by `kvSep`. -/
def dumpJsonFields (itemSep kvSep : String) : List (String × Json) → String
  | [] => ""
  | [(k, v)] => jsonQuote k ++ kvSep ++ dumpJson itemSep kvSep v
  | (k, v) :: p :: fs =>
      jsonQuote k ++ kvSep ++ dumpJson itemSep kvSep v ++ itemSep
        ++ dumpJsonFields itemSep kvSep (p :: fs)

end

/-- Lexicographic strict order on character lists, by code point (the order
Python string comparison uses). -/
def charListLt : List Char → List Char → Bool
  | [], [] => false
  | [], _ :: _ => true
  | _ :: _, [] => false
  | a :: as, b :: bs =>
      if a.toNat < b.toNat then true
      else if b.toNat < a.toNat then false
      else charListLt as bs

/-- Python's `<` on strings: lexicographic by code point. -/
def strLt (a b : String) : Bool := charListLt a.data b.data

/-- Insert a field into a key-sorted field list, after all strictly smaller
keys and before equal ones (so the overall sort is stable, as Python's). -/
def insertByKey (x : String × Json) : List (String × Json) → List (String × Json)
  | [] => [x]
  | y :: ys => if strLt y.1 x.1 then y :: insertByKey x ys else x :: y :: ys

/-- Stable sort of object fields by key, code-point order (what
`sort_keys=True` applies at each object). -/
def sortFieldsByKey : List (String × Json) → List (String × Json)
  | [] => []
  | x :: xs => insertByKey x (sortFieldsByKey xs)

mutual

/-- Recursively sort every object's fields by key (Python `sort_keys=True`:
stable sort by code-point order). -/
def sortJsonKeys : Json → Json
  | .obj fs => .obj (sortFieldsByKey (sortJsonKeysFields fs))
  | .arr xs => .arr (sortJsonKeysList xs)
  | x => x

/-- Map `sortJsonKeys` over array elements. -/
def sortJsonKeysList : List Json → List Json
  | [] => []
  | x :: xs => sortJsonKeys x :: sortJsonKeysList xs

/-- Map `sortJsonKeys` over object field values. -/
def sortJsonKeysFields : List (String × Json) → List (String × Json)
  | [] => []
  | (k, v) :: fs => (k, sortJsonKeys v) :: sortJsonKeysFields fs

end

/-- Combine two numbers bit by bit with `f`, over `k` binary digits.
(Structurally recursive stand-in for `Nat.bitwise`, which the kernel cannot
unfold; all operands needing it in this development fit in 32 bits.) -/
def bitsZip (f : Nat → Nat → Nat) : Nat → Nat → Nat → Nat
  | 0, _, _ => 0
  | k + 1, x, y => f (x % 2) (y % 2) + 2 * bitsZip f k (x / 2) (y / 2)

/-- Bitwise AND on 32-bit naturals. -/
def nAnd (x y : Nat) : Nat := bitsZip (fun a b => a * b) 32 x y

/-- Bitwise XOR on 32-bit naturals. -/
def nXor (x y : Nat) : Nat := bitsZip (fun a b => (a + b) % 2) 32 x y

/-- UTF-8 encoding of one character, as byte values.  The usual mask-and-or
steps land in disjoint bit ranges, so they are written as arithmetic (which
the kernel evaluates fast). -/
def utf8EncodeCharNat (c : Char) : List Nat :=
  let n := c.toNat
  if n < 0x80 then [n]
  else if n < 0x800 then
    [0xC0 + (n >>> 6), 0x80 + n % 64]
  else if n < 0x10000 then
    [0xE0 + (n >>> 12), 0x80 + (n >>> 6) % 64, 0x80 + n % 64]
  else
    [0xF0 + (n >>> 18), 0x80 + (n >>> 12) % 64, 0x80 + (n >>> 6) % 64, 0x80 + n % 64]

/-- UTF-8 bytes of a string, as natural numbers (what `.encode("utf-8")`
yields in the Python source). -/
def strBytes (s : String) : List Nat :=
  s.data.flatMap utf8EncodeCharNat

/-- `json.dumps(obj, sort_keys=True, separators=(",", ":"), ensure_ascii=False)`:
the canonical serialized form used for content addressing. -/
def canonicalString (o : Json) : String :=
  dumpJson "," ":" (sortJsonKeys o)

/-- `_canonical_json_bytes` from `backend/clone.py`: canonical serialization,
UTF-8 encoded. -/
def canonical_json_bytes (o : Json) : List Nat :=
  strBytes (canonicalString o)

/-- `json.dumps(event, ensure_ascii=False)` with default separators and key
order, used for event-log lines. -/
def dumpsDefault (o : Json) : String :=
  dumpJson ", " ": " o

/-! ### SHA-256 (bytes to lowercase hex digest), as `hashlib.sha256(...).hexdigest()` -/

/-- Truncate to a 32-bit word. -/
def u32 (n : Nat) : Nat := n % 4294967296

/-- Right rotation of a 32-bit word: the two shifted parts occupy disjoint
bit ranges, so their OR is a sum. -/
def rotr32 (n x : Nat) : Nat := (x >>> n) + u32 ((x % (1 <<< n)) <<< (32 - n))

/-- SHA-256 big sigma 0. -/
def bsig0 (x : Nat) : Nat := nXor (nXor (rotr32 2 x) (rotr32 13 x)) (rotr32 22 x)

/-- SHA-256 big sigma 1. -/
def bsig1 (x : Nat) : Nat := nXor (nXor (rotr32 6 x) (rotr32 11 x)) (rotr32 25 x)

/-- SHA-256 small sigma 0. -/
def ssig0 (x : Nat) : Nat := nXor (nXor (rotr32 7 x) (rotr32 18 x)) (x >>> 3)

/-- SHA-256 small sigma 1. -/
def ssig1 (x : Nat) : Nat := nXor (nXor (rotr32 17 x) (rotr32 19 x)) (x >>> 10)

/-- SHA-256 choice function. -/
def shaCh (x y z : Nat) : Nat := nXor (nAnd x y) (nAnd (nXor x 4294967295) z)

/-- SHA-256 majority function. -/
def shaMaj (x y z : Nat) : Nat := nXor (nXor (nAnd x y) (nAnd x z)) (nAnd y z)

/-- SHA-256 round constants (decimal). -/
def shaK : Array Nat := #[
  1116352408, 1899447441, 3049323471, 3921009573, 961987163,
  1508970993, 2453635748, 2870763221, 3624381080, 310598401,
  607225278, 1426881987, 1925078388, 2162078206, 2614888103,
  3248222580, 3835390401, 4022224774, 264347078, 604807628,
  770255983, 1249150122, 1555081692, 1996064986, 2554220882,
  2821834349, 2952996808, 3210313671, 3336571891, 3584528711,
  113926993, 338241895, 666307205, 773529912, 1294757372,
  1396182291, 1695183700, 1986661051, 2177026350, 2456956037,
  2730485921, 2820302411, 3259730800, 3345764771, 3516065817,
  3600352804, 4094571909, 275423344, 430227734, 506948616,
  659060556, 883997877, 958139571, 1322822218, 1537002063,
  1747873779, 1955562222, 2024104815, 2227730452, 2361852424,
  2428436474, 2756734187, 3204031479, 3329325298]

/-- SHA-256 initial hash state (decimal). -/
def shaH0 : List Nat :=
  [1779033703, 3144134277, 1013904242, 2773480762,
   1359893119, 2600822924, 528734635, 1541459225]

/-- Big-endian 8-byte encoding of a number. -/
def be64 (n : Nat) : List Nat :=
  [n >>> 56 % 256, n >>> 48 % 256, n >>> 40 % 256, n >>> 32 % 256,
   n >>> 24 % 256, n >>> 16 % 256, n >>> 8 % 256, n % 256]

/-- SHA-256 padding: append `0x80`, zero bytes to 56 mod 64, then the bit
length as 8 big-endian bytes. -/
def shaPad (msg : List Nat) : List Nat :=
  let z := (119 - msg.length % 64) % 64
  msg ++ 0x80 :: List.replicate z 0 ++ be64 (8 * msg.length)

/-- Group bytes into big-endian 32-bit words. -/
def bytesToWords : List Nat → List Nat
  | a :: b :: c :: d :: rest => (a * 16777216 + b * 65536 + c * 256 + d) :: bytesToWords rest
  | _ => []

/-- Split a word list into chunks of sixteen (one SHA-256 block each; padded
input is always a multiple of sixteen words). -/
def chunk16 : List Nat → List (List Nat)
  | [] => []
  | w0 :: w1 :: w2 :: w3 :: w4 :: w5 :: w6 :: w7 ::
    w8 :: w9 :: w10 :: w11 :: w12 :: w13 :: w14 :: w15 :: rest =>
      [w0, w1, w2, w3, w4, w5, w6, w7, w8, w9, w10, w11, w12, w13, w14, w15] :: chunk16 rest
  | ws => [ws]

/-- Extend sixteen message words to the 64-entry SHA-256 message schedule. -/
def shaSchedule (w16 : List Nat) : Array Nat :=
  (List.range 48).foldl
    (fun w i =>
      let t := i + 16
      w.push (u32 (w.get! (t - 16) + ssig0 (w.get! (t - 15)) + w.get! (t - 7) + ssig1 (w.get! (t - 2)))))
    w16.toArray

/-- One SHA-256 compression step over a 512-bit block. -/
def shaCompress (h : List Nat) (w16 : List Nat) : List Nat :=
  let w := shaSchedule w16
  let s := (List.range 64).foldl
    (fun (s : Array Nat) i =>
      let a := s.get! 0
      let b := s.get! 1
      let c := s.get! 2
      let d := s.get! 3
      let e := s.get! 4
      let f := s.get! 5
      let g := s.get! 6
      let hh := s.get! 7
      let t1 := u32 (hh + bsig1 e + shaCh e f g + shaK.get! i + w.get! i)
      let t2 := u32 (bsig0 a + shaMaj a b c)
      #[u32 (t1 + t2), a, b, c, u32 (d + t1), e, f, g])
    (h.toArray)
  (List.range 8).map (fun i => u32 (h.get! i + s.get! i))

/-- SHA-256 digest of a byte list, as eight 32-bit words. -/
def sha256Words (msg : List Nat) : List Nat :=
  (chunk16 (bytesToWords (shaPad msg))).foldl shaCompress shaH0

/-- Eight lowercase hex digits of a 32-bit word. -/
def hex8 (n : Nat) : String :=
  let ds := Nat.toDigits 16 (u32 n)
  String.mk (List.replicate (8 - ds.length) '0' ++ ds)

/-- SHA-256 hex digest of a byte list (`hashlib.sha256(b).hexdigest()`). -/
def sha256hex (msg : List Nat) : String :=
  String.join ((sha256Words msg).map hex8)

/-- `_content_hash_sha256` from `backend/clone.py`: SHA-256 hex digest of the
canonical JSON bytes. -/
def content_hash_sha256 (o : Json) : String :=
  sha256hex (canonical_json_bytes o)

/-! ### URL query helpers (`_extract_query_param`, `_extract_cursor` from `backend/main.py`) -/

/-- Split a character list on a separator character (semantics of Python
`str.split(sep)` for a one-character separator). -/
def splitCharList (c : Char) : List Char → List (List Char)
  | [] => [[]]
  | x :: xs =>
    match splitCharList c xs with
    | [] => [[]]
    | g :: gs => if x = c then [] :: g :: gs else (x :: g) :: gs

/-- Split a string on a separator character. -/
def splitChar (c : Char) (s : String) : List String :=
  (splitCharList c s.data).map String.mk

/-- The query component of a URL: the part after the first `?`, with any
fragment (after `#`) stripped first, as `urllib.parse.urlparse` yields it. -/
def urlQueryOf (u : String) : String :=
  let noFrag := ((splitChar '#' u).headD u)
  match splitChar '?' noFrag with
  | [] => ""
  | [_] => ""
  | _ :: rest => String.intercalate "?" rest

/-- First value bound to `name` in a query string, as
`parse_qs(query).get(name)` followed by `val[0] if val else None`: pairs are
split on `&` then on the first `=`; pairs with a blank value are dropped. -/
def queryFirstValue (query name : String) : Option String :=
  let pairs := (splitChar '&' query).filterMap (fun kv =>
    match splitChar '=' kv with
    | [] => none
    | [_] => none
    | k :: vs =>
        let v := String.intercalate "=" vs
        if v = "" then none else some (k, v))
  ((pairs.filter (fun p => p.1 = name)).head?).map (·.2)

/-- `_extract_query_param(url, name)` from `backend/main.py`. -/
def extract_query_param (url : Option String) (name : String) : Option String :=
  match url with
  | none => none
  | some u => if u = "" then none else queryFirstValue (urlQueryOf u) name

/-- `_extract_cursor(next_url)` from `backend/main.py`. -/
def extract_cursor (next_url : Option String) : Option String :=
  extract_query_param next_url "cursor"

/-! ### Durable per-operation state (`CloneStore` and the on-disk layout) -/

/-- `CloneStore.part_max_bytes`: the event-log segment size threshold. -/
def part_max_bytes : Nat := 100 * 1024 * 1024

/-- The in-memory fields of a `CloneStore` instance that drive event-log
rotation (`part_index`, `part_bytes`; `current_events_path` is always
`part-<part_index>`). -/
structure CloneStoreMem where
  part_index : Nat
  part_bytes : Nat
deriving DecidableEq, Repr

/-- A freshly constructed `CloneStore` (lines 91–94): first segment, zero
bytes accounted. -/
def freshCloneStoreMem : CloneStoreMem := ⟨1, 0⟩

/-- The checkpoint payload persisted at lines 442–454 (minus the wall-clock
`updated_at` field, which nothing reads). -/
structure Checkpoint where
  operation_id : String
  cursor : Option String
  pages : Nat
  received_raw : Nat
  processed_total : Nat
  events_written : Nat
  objects_written : Nat
  fixed_updated_from : Option String
  fixed_updated_to : Option String
  fixed_stages : Option String
deriving DecidableEq, Repr

/-- The terminal result payload built at lines 496–507, projected to its
identifying and counter fields (path/timestamp fields abstracted). -/
structure CloneResult where
  operation_id : String
  pages : Nat
  received_raw : Nat
  events_written : Nat
  objects_written : Nat
deriving DecidableEq, Repr

/-- A persisted `status.json` payload, projected to the fields the control
flow reads: the status string, the failure cause, and the stored terminal
result of a completed run. -/
structure StatusFile where
  operation_id : String
  status : String
  error : Option String
  result : Option CloneResult
deriving DecidableEq, Repr

/-- The manifest written once at successful completion (lines 470–494),
projected to parameters and counters.  `total_requested = none` models the
`"unlimited"` sentinel written when `total <= 0`. -/
structure Manifest where
  operation_id : String
  total_requested : Option Int
  fixed_stages : Option String
  fixed_updated_from : Option String
  fixed_updated_to : Option String
  pages : Nat
  received_raw : Nat
  events_written : Nat
  objects_written : Nat
deriving DecidableEq, Repr

/-- The durable directory of one operation (`data/clones/<id>`): content
hashes that have an object file, the rotated event log as
(segment index, serialized line) in append order, and the three JSON files. -/
structure OpDir where
  objects : List String
  events : List (Nat × String)
  statusFile : Option StatusFile
  checkpointFile : Option Checkpoint
  manifestFile : Option Manifest
deriving DecidableEq, Repr

/-- A directory as `CloneStore.__init__` leaves a brand-new one: subtrees
created, no files yet. -/
def emptyOpDir : OpDir := ⟨[], [], none, none, none⟩

/-- One entry of the process-wide `CLONE_OPERATIONS` dict, projected to the
fields the control flow reads (`status`, `completed`, `error`, `result`). -/
structure MemOp where
  status : String
  completed : Bool
  error : Option String
  result : Option CloneResult
deriving DecidableEq, Repr

/-- Process-wide state: the in-memory operation registry and the
`data/clones` tree (an operation directory exists iff its id is a key). -/
structure SysState where
  mem : List (String × MemOp)
  fs : List (String × OpDir)
deriving DecidableEq, Repr

/-- Python dict lookup on an association list. -/
def dictGet {α : Type} : List (String × α) → String → Option α
  | [], _ => none
  | (k', v) :: rest, k => if k' = k then some v else dictGet rest k

/-- Python dict assignment: replace in place, else append. -/
def dictInsert {α : Type} : List (String × α) → String → α → List (String × α)
  | [], k, v => [(k, v)]
  | (k', v') :: rest, k, v =>
      if k' = k then (k, v) :: rest else (k', v') :: dictInsert rest k v

/-- `CloneStore.write_object_if_missing` (lines 129–138): fast-path existence
check, then the double-checked test under the exclusive lock before the
atomic gzip write of the canonical bytes; returns whether it wrote. -/
def write_object_if_missing (d : OpDir) (content_hash : String) (obj : Json) : Bool × OpDir :=
  if content_hash ∈ d.objects then (false, d)
  else
    let _raw := canonical_json_bytes obj
    if content_hash ∈ d.objects then (false, d)
    else (true, { d with objects := d.objects ++ [content_hash] })

/-- `CloneStore._rotate_if_needed` (lines 96–100). -/
def rotate_if_needed (cs : CloneStoreMem) : CloneStoreMem :=
  if cs.part_bytes ≥ part_max_bytes then ⟨cs.part_index + 1, 0⟩ else cs

/-- `CloneStore.append_event` (lines 140–146): serialize one line, rotate if
needed, append the line to the current segment, account its byte length. -/
def append_event (cs : CloneStoreMem) (d : OpDir) (event : Json) : CloneStoreMem × OpDir :=
  let line := dumpsDefault event ++ "\n"
  let cs1 := rotate_if_needed cs
  (⟨cs1.part_index, cs1.part_bytes + (strBytes line).length⟩,
   { d with events := d.events ++ [(cs1.part_index, line)] })

/-- `CloneStore.save_checkpoint` (atomic overwrite of `checkpoint.json`). -/
def save_checkpoint (d : OpDir) (cp : Checkpoint) : OpDir :=
  { d with checkpointFile := some cp }

/-- `CloneStore.save_status` (atomic overwrite of `status.json`). -/
def save_status (d : OpDir) (st : StatusFile) : OpDir :=
  { d with statusFile := some st }

/-- `CloneStore.finalize_manifest` (atomic overwrite of `manifest.json`). -/
def finalize_manifest (d : OpDir) (m : Manifest) : OpDir :=
  { d with manifestFile := some m }

/-- `CloneStore.read_status` (lines 120–127). -/
def read_status (d : OpDir) : Option StatusFile := d.statusFile

/-- `CloneStore.load_checkpoint` (lines 102–110): empty when no file. -/
def load_checkpoint (d : OpDir) : Option Checkpoint := d.checkpointFile

/-! ### The paging loop (`_clone_database_impl`, lines 342–517) -/

/-- An upstream request's query parameters (`params` dict, lines 380–388). -/
structure Request where
  limit : Nat
  cursor : Option String
  stages : Option String
  updatedFrom : Option String
  updatedTo : Option String
deriving DecidableEq, Repr

/-- One externally visible effect of a run, in execution order: an upstream
fetch or a durable store mutation. -/
inductive StoreOp where
  | fetch : Request → StoreOp
  | writeObject : String → StoreOp
  | appendEvent : Json → StoreOp
  | saveCheckpoint : Checkpoint → StoreOp
  | saveStatus : StatusFile → StoreOp
  | finalizeManifest : Manifest → StoreOp
deriving Repr

/-- An optional string as the JSON value a Python `None`/str lands as. -/
def optStrJson : Option String → Json
  | none => .null
  | some s => .str s

/-- The placeholder standing for `datetime.utcnow().isoformat() + "Z"` (the
code never branches on these strings). -/
def nowPlaceholder : String := ""

/-- `_extract_upstream_version_fields` (lines 68–75): provenance fields of a
release and its page, with absent ones dropped. -/
def extract_upstream_version_fields (release page_payload : Json) : Json :=
  .obj (([("release_id", jsonLookup release "id"),
          ("release_date", jsonLookup release "date"),
          ("page_publishedDate", jsonLookup page_payload "publishedDate"),
          ("page_date", jsonLookup page_payload "date")]).filterMap
        (fun p => p.2.map (fun v => (p.1, v))))

/-- The per-record event dict appended at lines 418–427. -/
def mkEvent (pagesNo : Nat) (cursor : Option String) (data rel : Json) : Json :=
  .obj [("fetched_at", .str nowPlaceholder),
        ("source", .str "api"),
        ("page", .num (Int.ofNat pagesNo)),
        ("cursor", optStrJson cursor),
        ("ocid", (jsonLookup rel "ocid").getD .null),
        ("content_hash", .str (content_hash_sha256 rel)),
        ("upstream", extract_upstream_version_fields rel data),
        ("page_uri", (jsonLookup data "uri").getD .null)]

/-- `data.get("releases", []) or []`: absent, null or non-array gives `[]`. -/
def getReleases (data : Json) : List Json :=
  match jsonLookup data "releases" with
  | some (.arr xs) => xs
  | _ => []

/-- The loop variables of `_clone_database_impl` (including the per-instance
`CloneStore` rotation state and the operation's directory). -/
structure LoopSt where
  cursor : Option String
  pages : Nat
  received_raw : Nat
  events_written : Nat
  objects_written : Nat
  processed_total : Nat
  fixed_updated_from : Option String
  fixed_updated_to : Option String
  fixed_stages : Option String
  remaining : Option Int
  cs : CloneStoreMem
  dir : OpDir
deriving DecidableEq, Repr

/-- The `params` dict of lines 380–388: each optional parameter is included
only when truthy. -/
def buildRequest (s : LoopSt) : Request :=
  { limit := 100
  , cursor := if truthyStr s.cursor then s.cursor else none
  , stages := if truthyStr s.fixed_stages then s.fixed_stages else none
  , updatedFrom := if truthyStr s.fixed_updated_from then s.fixed_updated_from else none
  , updatedTo := if truthyStr s.fixed_updated_to then s.fixed_updated_to else none }

/-- The guard `remaining != float("inf") and remaining <= 0` (line 377). -/
def quotaDone (remaining : Option Int) : Bool :=
  match remaining with
  | some r => decide (r ≤ 0)
  | none => false

/-- What processing the records of one page yields: the rotation state and
directory afterwards, how many objects were actually written and events
appended, the store operations emitted in order, and the
(page number, record) pairs committed. -/
structure RecOut where
  cs : CloneStoreMem
  dir : OpDir
  wrote : Nat
  appended : Nat
  ops : List StoreOp
  committed : List (Nat × Json)
deriving Repr

/-- The per-record body of the `for rel in page_releases` loop (lines
411–428): hash, write-if-missing, append event. -/
def processRecords (pagesNo : Nat) (cursor : Option String) (data : Json) :
    CloneStoreMem → OpDir → List Json → RecOut
  | cs, d, [] => ⟨cs, d, 0, 0, [], []⟩
  | cs, d, rel :: rest =>
    let h := content_hash_sha256 rel
    let wr := write_object_if_missing d h rel
    let ev := mkEvent pagesNo cursor data rel
    let ae := append_event cs wr.2 ev
    let o := processRecords pagesNo cursor data ae.1 ae.2 rest
    ⟨o.cs, o.dir, (if wr.1 then 1 else 0) + o.wrote, 1 + o.appended,
     .writeObject h :: .appendEvent ev :: o.ops, (pagesNo, rel) :: o.committed⟩

/-- Outcome of one pass through the `while True` body. -/
inductive IterStep where
  | brk : IterStep
  | cont : IterStep
  | fail : String → IterStep
deriving DecidableEq, Repr

/-- One pass through the `while True` body, with the resulting state, the
emitted store operations in order, and the committed records. -/
structure IterOut where
  step : IterStep
  state : LoopSt
  trace : List StoreOp
  committed : List (Nat × Json)
deriving Repr

/-- One pass through the `while True` body (lines 376–466), in source order:
quota guard, request build, fetch (errors propagate to the top-level
handler), first-page freezing of `updatedTo`, empty-page break, record
processing, quota bookkeeping, cursor advance (with break before checkpoint
when exhausted), checkpoint and status persistence. -/
def iterOnce (fetch : Request → Except String Json) (total : Int)
    (operation_id : String) (s : LoopSt) : IterOut :=
  if quotaDone s.remaining then ⟨.brk, s, [], []⟩
  else
    let req := buildRequest s
    match fetch req with
    | .error e => ⟨.fail e, s, [.fetch req], []⟩
    | .ok data =>
      let fxTo :=
        match s.fixed_updated_to with
        | some v => some v
        | none =>
          match extract_query_param (asStr (jsonLookup data "uri")) "updatedTo" with
          | some v => some v
          | none => extract_query_param (asStr (safe_get2 data "links" "next")) "updatedTo"
      let s1 : LoopSt := { s with fixed_updated_to := fxTo }
      let releases := getReleases data
      if releases.isEmpty then ⟨.brk, s1, [.fetch req], []⟩
      else
        let pages1 := s1.pages + 1
        let received1 := s1.received_raw + releases.length
        let page_releases :=
          match s1.remaining with
          | none => releases
          | some r => releases.take r.toNat
        let pr := processRecords pages1 s1.cursor data s1.cs s1.dir page_releases
        let objects1 := s1.objects_written + pr.wrote
        let events1 := s1.events_written + pr.appended
        let processed1 : Nat :=
          match s1.remaining with
          | none => s1.processed_total
          | some _ => s1.processed_total + page_releases.length
        let remaining1 : Option Int :=
          match s1.remaining with
          | none => none
          | some _ => some (total - Int.ofNat processed1)
        let nc0 := asStr (jsonLookup data "nextCursor")
        let next_cursor :=
          if truthyStr nc0 then nc0
          else extract_cursor (asStr (safe_get2 data "links" "next"))
        let s2 : LoopSt :=
          { s1 with cursor := next_cursor, pages := pages1, received_raw := received1,
                    objects_written := objects1, events_written := events1,
                    processed_total := processed1, remaining := remaining1,
                    cs := pr.cs, dir := pr.dir }
        if !truthyStr next_cursor then
          ⟨.brk, s2, .fetch req :: pr.ops, pr.committed⟩
        else
          let cp : Checkpoint :=
            { operation_id := operation_id
            , cursor := next_cursor
            , pages := pages1
            , received_raw := received1
            , processed_total := processed1
            , events_written := events1
            , objects_written := objects1
            , fixed_updated_from := s1.fixed_updated_from
            , fixed_updated_to := fxTo
            , fixed_stages := s1.fixed_stages }
          let st : StatusFile := ⟨operation_id, "running", none, none⟩
          let s3 : LoopSt := { s2 with dir := save_status (save_checkpoint s2.dir cp) st }
          ⟨.cont, s3, .fetch req :: pr.ops ++ [.saveCheckpoint cp, .saveStatus st], pr.committed⟩

/-- Terminal condition of the paging loop. -/
inductive LoopRes where
  | done : LoopRes
  | err : String → LoopRes
  | noFuel : LoopRes
deriving DecidableEq, Repr

/-- A run of the paging loop: how it ended, the final loop state, the store
operations it performed in order, and the records it committed. -/
structure RunOut where
  res : LoopRes
  state : LoopSt
  trace : List StoreOp
  committed : List (Nat × Json)
deriving Repr

/-- The `while True` loop, fuel-bounded: `noFuel` models the process being
killed mid-run (the real loop has no such exit). -/
def runLoop (fetch : Request → Except String Json) (total : Int) (operation_id : String) :
    Nat → LoopSt → RunOut
  | 0, s => ⟨.noFuel, s, [], []⟩
  | fuel + 1, s =>
    let it := iterOnce fetch total operation_id s
    match it.step with
    | .brk => ⟨.done, it.state, it.trace, it.committed⟩
    | .fail e => ⟨.err e, it.state, it.trace, it.committed⟩
    | .cont =>
      let rest := runLoop fetch total operation_id fuel it.state
      ⟨rest.res, rest.state, it.trace ++ rest.trace, it.committed ++ rest.committed⟩

/-- Lines 359–371: load the checkpoint and initialize the loop variables
(`remaining = total if total > 0 else float("inf")`; frozen parameters default
to the caller's when the checkpoint lacks them). -/
def initLoopSt (total : Int) (stages updatedFrom updatedTo : Option String) (dir : OpDir) : LoopSt :=
  let cp? := load_checkpoint dir
  { cursor := match cp? with | some c => c.cursor | none => none
  , pages := match cp? with | some c => c.pages | none => 0
  , received_raw := match cp? with | some c => c.received_raw | none => 0
  , events_written := match cp? with | some c => c.events_written | none => 0
  , objects_written := match cp? with | some c => c.objects_written | none => 0
  , processed_total := match cp? with | some c => c.processed_total | none => 0
  , fixed_updated_from := match cp? with | some c => c.fixed_updated_from | none => updatedFrom
  , fixed_updated_to := match cp? with | some c => c.fixed_updated_to | none => updatedTo
  , fixed_stages := match cp? with | some c => c.fixed_stages | none => stages
  , remaining := if total > 0 then some total else none
  , cs := freshCloneStoreMem
  , dir := dir }

/-- Terminal outcome of `_clone_database_impl`. -/
inductive ImplOut where
  | ok : CloneResult → ImplOut
  | err : String → ImplOut
  | interrupted : ImplOut
deriving DecidableEq, Repr

/-- A finished (or interrupted) run of `_clone_database_impl`: outcome, the
operation directory and registry afterwards, the ordered effect trace, and
the (page number, record) pairs the run committed. -/
structure ImplRun where
  out : ImplOut
  dir : OpDir
  mem : List (String × MemOp)
  trace : List StoreOp
  committed : List (Nat × Json)
deriving Repr

/-- `_clone_database_impl` (lines 342–517): run the paging loop; on normal
exit write the manifest, the terminal result, registry entry and completed
status; on any exception record `failed` (with a readable cause) in registry
and status and surface the distinct clone-failed error.  An `interrupted`
run models the process dying mid-loop: nothing further is written. -/
def clone_database_impl (fetch : Request → Except String Json) (total : Int)
    (stages updatedFrom updatedTo : Option String) (operation_id : String)
    (mem : List (String × MemOp)) (fuel : Nat) (dir : OpDir) : ImplRun :=
  let s0 := initLoopSt total stages updatedFrom updatedTo dir
  let run := runLoop fetch total operation_id fuel s0
  match run.res with
  | .done =>
    let s1 := run.state
    let m : Manifest :=
      { operation_id := operation_id
      , total_requested := if total > 0 then some total else none
      , fixed_stages := s1.fixed_stages
      , fixed_updated_from := s1.fixed_updated_from
      , fixed_updated_to := s1.fixed_updated_to
      , pages := s1.pages
      , received_raw := s1.received_raw
      , events_written := s1.events_written
      , objects_written := s1.objects_written }
    let d1 := finalize_manifest s1.dir m
    let r : CloneResult :=
      ⟨operation_id, s1.pages, s1.received_raw, s1.events_written, s1.objects_written⟩
    let mem1 := dictInsert mem operation_id ⟨"completed", true, none, some r⟩
    let st : StatusFile := ⟨operation_id, "completed", none, some r⟩
    ⟨.ok r, save_status d1 st, mem1, run.trace ++ [.finalizeManifest m, .saveStatus st], run.committed⟩
  | .err e =>
    let error_msg := "HTTPException: 502: " ++ e
    let mem1 := dictInsert mem operation_id ⟨"failed", true, some error_msg, none⟩
    let st : StatusFile := ⟨operation_id, "failed", some error_msg, none⟩
    ⟨.err ("Clone failed: " ++ error_msg), save_status run.state.dir st, mem1,
     run.trace ++ [.saveStatus st], run.committed⟩
  | .noFuel => ⟨.interrupted, run.state.dir, mem, run.trace, run.committed⟩

/-! ### The trigger endpoint (`clone_raw_database`, lines 227–340) -/

/-- What the trigger returns to its caller: an HTTP error, the stored status
of an already-completed run, the background acknowledgement, a synchronous
terminal result — or `interrupted` when the modelled process dies mid-run. -/
inductive TriggerResult where
  | httpError : Nat → String → TriggerResult
  | statusValue : StatusFile → TriggerResult
  | queued : String → TriggerResult
  | result : CloneResult → TriggerResult
  | interrupted : TriggerResult
deriving DecidableEq, Repr

/-- Line 248: the number of registered operations not yet completed. -/
def activeBgOps (mem : List (String × MemOp)) : Nat :=
  (mem.map (fun p => p.2)).countP (fun op => !op.completed)

/-- `CloneStore.__init__` (lines 79–94) as a file-system effect: creating the
store resolves the per-operation paths and makes the objects/events
directories (`parents=True, exist_ok=True`), so the operation's base
directory exists afterwards even if it did not before. -/
def mkCloneStore (fs : List (String × OpDir)) (operation_id : String) : List (String × OpDir) :=
  match dictGet fs operation_id with
  | some _ => fs
  | none => dictInsert fs operation_id emptyOpDir

/-- `store.save_status` as seen from the whole file system. -/
def fsSaveStatus (fs : List (String × OpDir)) (opId : String) (st : StatusFile) :
    List (String × OpDir) :=
  dictInsert fs opId (save_status ((dictGet fs opId).getD emptyOpDir) st)

/-- Lines 264–340 after the operation id is resolved: register the running
operation in memory, persist a running status, then run the orchestrator —
synchronously, or as a background task whose acknowledgement is returned at
once and whose terminal outcome (including the done-callback's failure
entry, line 203–209) still lands in the registry and store. -/
def clone_dispatch (fetch : Request → Except String Json) (fuel : Nat) (total : Int)
    (stages updatedFrom updatedTo : Option String) (background : Bool)
    (opId : String) (mem : List (String × MemOp)) (fs : List (String × OpDir)) :
    TriggerResult × SysState :=
  let mem1 := dictInsert mem opId ⟨"running", false, none, none⟩
  let fs2 := fsSaveStatus fs opId ⟨opId, "running", none, none⟩
  let run := clone_database_impl fetch total stages updatedFrom updatedTo opId mem1 fuel
    ((dictGet fs2 opId).getD emptyOpDir)
  let fs3 := dictInsert fs2 opId run.dir
  if background then
    let mem2 :=
      match run.out with
      | .err detail => dictInsert run.mem opId ⟨"failed", true, some ("500: " ++ detail), none⟩
      | .interrupted => run.mem
      | .ok _ => run.mem
    (.queued opId, ⟨mem2, fs3⟩)
  else
    match run.out with
    | .ok r => (.result r, ⟨run.mem, fs3⟩)
    | .err detail => (.httpError 500 detail, ⟨run.mem, fs3⟩)
    | .interrupted => (.interrupted, ⟨run.mem, fs3⟩)

/-- `clone_raw_database` (lines 227–340): concurrency guard; operation id
resolution (reuse a truthy caller-supplied id — constructing its store first
— or mint a fresh one, abstracted as `genId`); idempotent short-circuit for
a completed, non-forced operation; then dispatch. -/
def clone_raw_database (fetch : Request → Except String Json) (fuel : Nat) (genId : String)
    (total : Int) (stages updatedFrom updatedTo : Option String)
    (background : Bool) (operation_id : Option String) (force : Bool)
    (sys : SysState) : TriggerResult × SysState :=
  let active_bg_ops := activeBgOps sys.mem
  if background && decide (2 ≤ active_bg_ops) then
    (.httpError 429
      ("Too many background operations running (" ++ toString active_bg_ops ++ "). Max: 2"), sys)
  else if truthyStr operation_id then
    let opId := operation_id.getD ""
    let fs1 := mkCloneStore sys.fs opId
    if (dictGet fs1 opId).isNone then
      (.httpError 404 ("operation_id not found on disk: " ++ opId), ⟨sys.mem, fs1⟩)
    else
      match (dictGet fs1 opId).bind read_status with
      | some st =>
        if st.status == "completed" && !force then (.statusValue st, ⟨sys.mem, fs1⟩)
        else clone_dispatch fetch fuel total stages updatedFrom updatedTo background opId sys.mem fs1
      | none => clone_dispatch fetch fuel total stages updatedFrom updatedTo background opId sys.mem fs1
  else
    let opId := genId
    let fs1 := mkCloneStore sys.fs opId
    clone_dispatch fetch fuel total stages updatedFrom updatedTo background opId sys.mem fs1

/-- The declared bound on the `total` query parameter (`Query(-1, ge=-1)`). -/
def totalParamOk (total : Int) : Bool := decide (-1 ≤ total)

/-! ### Concrete fixtures for the concrete-run theorems and witnesses -/

set_option maxRecDepth 100000

/-- A one-field record. -/
def rec1 : Json := .obj [("id", .str "1")]

/-- A second, distinct one-field record. -/
def rec2 : Json := .obj [("id", .str "2")]

/-- A first upstream page: one release, next cursor `c2`. -/
def firstPage : Json := .obj [("releases", .arr [rec1]), ("nextCursor", .str "c2")]

/-- The page at cursor `c2`: one release, no further cursor. -/
def secondPage : Json := .obj [("releases", .arr [rec2])]

/-- A deterministic two-page upstream. -/
def upstreamTwoPages : Request → Except String Json := fun req =>
  match req.cursor with
  | none => .ok firstPage
  | some c => if c = "c2" then .ok secondPage else .ok (Json.obj [])

/-- An upstream whose stream is already exhausted. -/
def upstreamEmpty : Request → Except String Json := fun _ => .ok (Json.obj [])

/-- An upstream that fails every request even after retries. -/
def upstreamDown : Request → Except String Json := fun _ => .error "FindTender: exceeded retries"

/-! ### Helper lemmas -/

/-- Reading back the key just assigned in a dict. -/
theorem dictGet_dictInsert {α : Type} (m : List (String × α)) (k : String) (v : α) :
    dictGet (dictInsert m k v) k = some v := by
  induction m with
  | nil => simp [dictInsert, dictGet]
  | cons p rest ih =>
    obtain ⟨k', v'⟩ := p
    by_cases h : k' = k
    · simp [dictInsert, dictGet, h]
    · simp [dictInsert, dictGet, h, ih]

/-- Constructing a `CloneStore` for an operation whose directory exists
leaves the file system unchanged. -/
theorem mkCloneStore_existing (fs : List (String × OpDir)) (id : String) (d : OpDir)
    (h : dictGet fs id = some d) : mkCloneStore fs id = fs := by
  unfold mkCloneStore
  rw [h]

/-- The idempotent fast path of `write_object_if_missing`. -/
theorem write_object_if_missing_mem (d : OpDir) (h : String) (o : Json)
    (hm : h ∈ d.objects) : write_object_if_missing d h o = (false, d) := by
  unfold write_object_if_missing
  simp [hm]

/-- The writing path of `write_object_if_missing`. -/
theorem write_object_if_missing_not_mem (d : OpDir) (h : String) (o : Json)
    (hm : h ∉ d.objects) :
    write_object_if_missing d h o = (true, { d with objects := d.objects ++ [h] }) := by
  unfold write_object_if_missing
  simp [hm]

/-- C3: two records with identical canonical serialized content are keyed by
the same sha256 content hash, wherever and whenever they arrive;
`write_object_if_missing` returns false without writing when the object
already exists, returns true iff it actually wrote, and writing the two
records in turn (into a store holding each object at most once) leaves
exactly one object file for that content. -/
theorem c3_dedup_by_content (o1 o2 : Json) (d : OpDir) (h : String)
    (hcanon : canonical_json_bytes o1 = canonical_json_bytes o2)
    (hnd : d.objects.Nodup) :
    content_hash_sha256 o1 = content_hash_sha256 o2
    ∧ (h ∈ d.objects → write_object_if_missing d h o1 = (false, d))
    ∧ ((write_object_if_missing d h o1).1 = true ↔ h ∉ d.objects)
    ∧ (write_object_if_missing
         (write_object_if_missing d (content_hash_sha256 o1) o1).2
         (content_hash_sha256 o2) o2).1 = false
    ∧ (write_object_if_missing
         (write_object_if_missing d (content_hash_sha256 o1) o1).2
         (content_hash_sha256 o2) o2).2.objects.count (content_hash_sha256 o1) = 1
    ∧ (write_object_if_missing
         (write_object_if_missing d (content_hash_sha256 o1) o1).2
         (content_hash_sha256 o2) o2).2.objects.Nodup := by
  have hashEq : content_hash_sha256 o1 = content_hash_sha256 o2 := by
    unfold content_hash_sha256
    rw [hcanon]
  have fastPath : h ∈ d.objects → write_object_if_missing d h o1 = (false, d) :=
    fun hm => write_object_if_missing_mem d h o1 hm
  have wroteIff : (write_object_if_missing d h o1).1 = true ↔ h ∉ d.objects := by
    by_cases hm : h ∈ d.objects
    · rw [write_object_if_missing_mem d h o1 hm]
      simp [hm]
    · rw [write_object_if_missing_not_mem d h o1 hm]
      simp [hm]
  -- after the first write the hash is present (either it already was, or it
  -- was just written), with every object still stored at most once
  have step1 : (content_hash_sha256 o1 ∈ (write_object_if_missing d (content_hash_sha256 o1) o1).2.objects)
      ∧ (write_object_if_missing d (content_hash_sha256 o1) o1).2.objects.Nodup := by
    by_cases hm : content_hash_sha256 o1 ∈ d.objects
    · rw [write_object_if_missing_mem d _ o1 hm]
      exact ⟨hm, hnd⟩
    · rw [write_object_if_missing_not_mem d _ o1 hm]
      refine ⟨by simp, ?_⟩
      simpa [List.nodup_append] using ⟨hnd, hm⟩
  have step2eq : write_object_if_missing
      (write_object_if_missing d (content_hash_sha256 o1) o1).2 (content_hash_sha256 o2) o2
      = (false, (write_object_if_missing d (content_hash_sha256 o1) o1).2) := by
    refine write_object_if_missing_mem _ _ _ ?_
    rw [← hashEq]
    exact step1.1
  refine ⟨hashEq, fastPath, wroteIff, ?_, ?_, ?_⟩
  · rw [step2eq]
  · rw [step2eq]
    exact List.count_eq_one_of_mem step1.2 step1.1
  · rw [step2eq]
    exact step1.2

/-- C3 witness: two syntactically different records with the same canonical
content, written into a fresh store. -/
theorem c3_dedup_by_content_witness :
    (canonical_json_bytes (Json.obj [("a", .num 1), ("b", .num 2)])
       = canonical_json_bytes (Json.obj [("b", .num 2), ("a", .num 1)]))
    ∧ (emptyOpDir.objects.Nodup)
    ∧ (content_hash_sha256 (Json.obj [("a", .num 1), ("b", .num 2)])
         = content_hash_sha256 (Json.obj [("b", .num 2), ("a", .num 1)])
       ∧ ("h0" ∈ emptyOpDir.objects →
            write_object_if_missing emptyOpDir "h0" (Json.obj [("a", .num 1), ("b", .num 2)])
              = (false, emptyOpDir))
       ∧ ((write_object_if_missing emptyOpDir "h0" (Json.obj [("a", .num 1), ("b", .num 2)])).1 = true
            ↔ "h0" ∉ emptyOpDir.objects)
       ∧ (write_object_if_missing
            (write_object_if_missing emptyOpDir
              (content_hash_sha256 (Json.obj [("a", .num 1), ("b", .num 2)]))
              (Json.obj [("a", .num 1), ("b", .num 2)])).2
            (content_hash_sha256 (Json.obj [("b", .num 2), ("a", .num 1)]))
            (Json.obj [("b", .num 2), ("a", .num 1)])).1 = false
       ∧ (write_object_if_missing
            (write_object_if_missing emptyOpDir
              (content_hash_sha256 (Json.obj [("a", .num 1), ("b", .num 2)]))
              (Json.obj [("a", .num 1), ("b", .num 2)])).2
            (content_hash_sha256 (Json.obj [("b", .num 2), ("a", .num 1)]))
            (Json.obj [("b", .num 2), ("a", .num 1)])).2.objects.count
              (content_hash_sha256 (Json.obj [("a", .num 1), ("b", .num 2)])) = 1
       ∧ (write_object_if_missing
            (write_object_if_missing emptyOpDir
              (content_hash_sha256 (Json.obj [("a", .num 1), ("b", .num 2)]))
              (Json.obj [("a", .num 1), ("b", .num 2)])).2
            (content_hash_sha256 (Json.obj [("b", .num 2), ("a", .num 1)]))
            (Json.obj [("b", .num 2), ("a", .num 1)])).2.objects.Nodup) :=
  ⟨by rfl, by simp [emptyOpDir],
   c3_dedup_by_content (Json.obj [("a", .num 1), ("b", .num 2)])
     (Json.obj [("b", .num 2), ("a", .num 1)]) emptyOpDir "h0" (by rfl) (by simp [emptyOpDir])⟩

/-- C7: a background trigger issued while at least two registered operations
are not yet completed is rejected at once with the distinct 429
concurrency-limit error, before any id resolution, registration or store
construction — the whole system state is untouched, and the result does not
depend on the id generator or the upstream. -/
theorem c7_background_ceiling (fetch : Request → Except String Json) (fuel : Nat)
    (genId : String) (total : Int) (stages updatedFrom updatedTo : Option String)
    (operation_id : Option String) (force : Bool) (sys : SysState)
    (hactive : 2 ≤ activeBgOps sys.mem) :
    clone_raw_database fetch fuel genId total stages updatedFrom updatedTo true
      operation_id force sys
      = (.httpError 429 ("Too many background operations running ("
          ++ toString (activeBgOps sys.mem) ++ "). Max: 2"), sys) := by
  unfold clone_raw_database
  simp [hactive]

/-- C7 witness: two running operations are registered; a third background
request is rejected and nothing changes. -/
theorem c7_background_ceiling_witness :
    2 ≤ activeBgOps [("a", ⟨"running", false, none, none⟩), ("b", ⟨"running", false, none, none⟩)]
    ∧ clone_raw_database upstreamEmpty 10 "gen" 1 none none none true (some "x") false
        ⟨[("a", ⟨"running", false, none, none⟩), ("b", ⟨"running", false, none, none⟩)], []⟩
      = (.httpError 429 ("Too many background operations running ("
          ++ toString (activeBgOps [("a", (⟨"running", false, none, none⟩ : MemOp)),
             ("b", ⟨"running", false, none, none⟩)]) ++ "). Max: 2"),
         ⟨[("a", ⟨"running", false, none, none⟩), ("b", ⟨"running", false, none, none⟩)], []⟩) :=
  ⟨by decide,
   c7_background_ceiling upstreamEmpty 10 "gen" 1 none none none (some "x") false
     ⟨[("a", ⟨"running", false, none, none⟩), ("b", ⟨"running", false, none, none⟩)], []⟩
     (by decide)⟩

/-- C4: re-triggering an operation whose persisted status is `completed`,
with `force = false` (and not rejected by the background ceiling), returns
the stored status unchanged and leaves the registry and file system exactly
as they were — in particular no upstream fetch happens (the quantified
`fetch` is never consulted), no object, event, checkpoint or status is
written — and a second identical invocation returns the identical result. -/
theorem c4_completed_idempotent (fetch : Request → Except String Json) (fuel : Nat)
    (genId : String) (total : Int) (stages updatedFrom updatedTo : Option String)
    (background : Bool) (opId : String) (sys : SysState) (d : OpDir) (st : StatusFile)
    (hid : opId ≠ "")
    (hdir : dictGet sys.fs opId = some d)
    (hst : read_status d = some st)
    (hcomp : st.status = "completed")
    (hguard : background = false ∨ activeBgOps sys.mem < 2) :
    clone_raw_database fetch fuel genId total stages updatedFrom updatedTo background
      (some opId) false sys = (.statusValue st, sys)
    ∧ clone_raw_database fetch fuel genId total stages updatedFrom updatedTo background
        (some opId) false
        (clone_raw_database fetch fuel genId total stages updatedFrom updatedTo background
          (some opId) false sys).2 = (.statusValue st, sys) := by
  have hguard' : (background && decide (2 ≤ activeBgOps sys.mem)) = false := by
    rcases hguard with hb | hlt
    · simp [hb]
    · simp [Nat.not_le_of_lt hlt]
  have hfs : mkCloneStore sys.fs opId = sys.fs := mkCloneStore_existing sys.fs opId d hdir
  have htruthy : truthyStr (some opId) = true := by
    simp [truthyStr, hid]
  have main : clone_raw_database fetch fuel genId total stages updatedFrom updatedTo background
      (some opId) false sys = (.statusValue st, sys) := by
    unfold clone_raw_database
    simp only [hguard', Bool.false_eq_true, if_false, htruthy, if_true, Option.getD_some,
      hfs, hdir, Option.isNone_some, Option.some_bind]
    rw [hst]
    simp [hcomp]
  exact ⟨main, by rw [main]; exact main⟩

/-- C4 witness: a concrete completed operation re-triggered twice. -/
theorem c4_completed_idempotent_witness :
    ("done1" : String) ≠ ""
    ∧ dictGet [("done1", (⟨["h"], [], some ⟨"done1", "completed", none, some ⟨"done1", 1, 1, 1, 1⟩⟩,
        none, none⟩ : OpDir))] "done1"
        = some ⟨["h"], [], some ⟨"done1", "completed", none, some ⟨"done1", 1, 1, 1, 1⟩⟩, none, none⟩
    ∧ read_status ⟨["h"], [], some ⟨"done1", "completed", none, some ⟨"done1", 1, 1, 1, 1⟩⟩, none, none⟩
        = some ⟨"done1", "completed", none, some ⟨"done1", 1, 1, 1, 1⟩⟩
    ∧ (⟨"done1", "completed", none, some ⟨"done1", 1, 1, 1, 1⟩⟩ : StatusFile).status = "completed"
    ∧ (clone_raw_database upstreamTwoPages 10 "gen" 1 none none none false (some "done1") false
        ⟨[], [("done1", ⟨["h"], [], some ⟨"done1", "completed", none, some ⟨"done1", 1, 1, 1, 1⟩⟩,
           none, none⟩)]⟩
        = (.statusValue ⟨"done1", "completed", none, some ⟨"done1", 1, 1, 1, 1⟩⟩,
           ⟨[], [("done1", ⟨["h"], [], some ⟨"done1", "completed", none, some ⟨"done1", 1, 1, 1, 1⟩⟩,
              none, none⟩)]⟩)
       ∧ clone_raw_database upstreamTwoPages 10 "gen" 1 none none none false (some "done1") false
          (clone_raw_database upstreamTwoPages 10 "gen" 1 none none none false (some "done1") false
            ⟨[], [("done1", ⟨["h"], [], some ⟨"done1", "completed", none, some ⟨"done1", 1, 1, 1, 1⟩⟩,
               none, none⟩)]⟩).2
        = (.statusValue ⟨"done1", "completed", none, some ⟨"done1", 1, 1, 1, 1⟩⟩,
           ⟨[], [("done1", ⟨["h"], [], some ⟨"done1", "completed", none, some ⟨"done1", 1, 1, 1, 1⟩⟩,
              none, none⟩)]⟩)) :=
  ⟨by decide, by decide, by decide, by decide,
   c4_completed_idempotent upstreamTwoPages 10 "gen" 1 none none none false "done1"
     ⟨[], [("done1", ⟨["h"], [], some ⟨"done1", "completed", none, some ⟨"done1", 1, 1, 1, 1⟩⟩,
        none, none⟩)]⟩
     ⟨["h"], [], some ⟨"done1", "completed", none, some ⟨"done1", 1, 1, 1, 1⟩⟩, none, none⟩
     ⟨"done1", "completed", none, some ⟨"done1", 1, 1, 1, 1⟩⟩
     (by decide) (by decide) (by decide) (by decide) (Or.inl rfl)⟩

/-- C6 (divergence witness): triggering with an operation id that has no
directory on disk does not produce the not-found error — because
`CloneStore.__init__` creates the directory (line 88) before the existence
check at line 256 runs, the check can never fire; the call instead creates
the directory and proceeds as a fresh run to a successful result. -/
theorem c6_missing_id_creates_directory :
    (clone_raw_database upstreamEmpty 10 "gen" 1 none none none false
        (some "ghost") false ⟨[], []⟩).1
      = .result ⟨"ghost", 0, 0, 0, 0⟩
    ∧ (dictGet (clone_raw_database upstreamEmpty 10 "gen" 1 none none none false
        (some "ghost") false ⟨[], []⟩).2.fs "ghost").isSome = true := by
  constructor
  · rfl
  · rfl

/-- C8: whenever `_clone_database_impl` surfaces an error, that error is the
distinct clone-failed error wrapping a readable cause, and both the
in-memory operation record and the persisted status file carry status
`failed` with that same cause — so polling status alone reveals the failure
and its reason, and no partial progress is reported as success. -/
theorem c8_failure_recorded (fetch : Request → Except String Json) (total : Int)
    (stages updatedFrom updatedTo : Option String) (opId : String)
    (mem : List (String × MemOp)) (fuel : Nat) (dir : OpDir) (detail : String)
    (herr : (clone_database_impl fetch total stages updatedFrom updatedTo opId mem fuel dir).out
      = .err detail) :
    ∃ msg, detail = "Clone failed: " ++ msg
    ∧ dictGet (clone_database_impl fetch total stages updatedFrom updatedTo opId mem fuel dir).mem
        opId = some ⟨"failed", true, some msg, none⟩
    ∧ (clone_database_impl fetch total stages updatedFrom updatedTo opId mem fuel dir).dir.statusFile
        = some ⟨opId, "failed", some msg, none⟩ := by
  unfold clone_database_impl at herr ⊢
  rcases hres : (runLoop fetch total opId fuel
      (initLoopSt total stages updatedFrom updatedTo dir)).res with _ | e | _
  · simp only [hres] at herr
    simp at herr
  · simp only [hres] at herr ⊢
    refine ⟨"HTTPException: 502: " ++ e, ?_, ?_, ?_⟩
    · simpa using herr.symm
    · simp [dictGet_dictInsert]
    · simp [save_status]
  · simp only [hres] at herr
    simp at herr

/-- C8 witness: an upstream that is down after retries; the run fails, and
the failure with its cause is visible in the registry and the status file. -/
theorem c8_failure_recorded_witness :
    (clone_database_impl upstreamDown 1 none none none "op" [] 10 emptyOpDir).out
      = .err "Clone failed: HTTPException: 502: FindTender: exceeded retries"
    ∧ ∃ msg, "Clone failed: HTTPException: 502: FindTender: exceeded retries"
        = "Clone failed: " ++ msg
      ∧ dictGet (clone_database_impl upstreamDown 1 none none none "op" [] 10 emptyOpDir).mem "op"
          = some ⟨"failed", true, some msg, none⟩
      ∧ (clone_database_impl upstreamDown 1 none none none "op" [] 10 emptyOpDir).dir.statusFile
          = some ⟨"op", "failed", some msg, none⟩ :=
  ⟨by rfl,
   c8_failure_recorded upstreamDown 1 none none none "op" [] 10 emptyOpDir
     "Clone failed: HTTPException: 502: FindTender: exceeded retries" (by rfl)⟩

/-- When the remaining quota is infinite, one loop pass never consults
`total`. -/
theorem iterOnce_total_irrel (fetch : Request → Except String Json) (t1 t2 : Int)
    (opId : String) (s : LoopSt) (hs : s.remaining = none) :
    iterOnce fetch t1 opId s = iterOnce fetch t2 opId s := by
  unfold iterOnce
  cases hf : fetch (buildRequest s) with
  | error e => simp [hs]
  | ok data => simp [hs, hf]

/-- When the remaining quota is infinite it stays infinite across a pass. -/
theorem iterOnce_state_remaining (fetch : Request → Except String Json) (t : Int)
    (opId : String) (s : LoopSt) (hs : s.remaining = none) :
    (iterOnce fetch t opId s).state.remaining = none := by
  unfold iterOnce
  cases hf : fetch (buildRequest s) with
  | error e => simp [hs, hf, quotaDone]
  | ok data =>
    simp only [hs, hf, quotaDone]
    repeat' split
    all_goals first | exact hs | simp

/-- When the remaining quota is infinite, the whole paging loop never
consults `total`. -/
theorem runLoop_total_irrel (fetch : Request → Except String Json) (opId : String)
    (t1 t2 : Int) : ∀ (fuel : Nat) (s : LoopSt), s.remaining = none →
    runLoop fetch t1 opId fuel s = runLoop fetch t2 opId fuel s
  | 0, _, _ => rfl
  | fuel + 1, s, hs => by
    simp only [runLoop]
    rw [iterOnce_total_irrel fetch t1 t2 opId s hs]
    cases hstep : (iterOnce fetch t2 opId s).step with
    | brk => simp [hstep]
    | fail e => simp [hstep]
    | cont =>
      simp only [hstep]
      rw [runLoop_total_irrel fetch opId t1 t2 fuel _
        (iterOnce_state_remaining fetch t2 opId s hs)]

/-- A non-positive `total` initializes exactly as the `-1` sentinel does. -/
theorem initLoopSt_nonpos (total : Int) (h : total ≤ 0)
    (stages updatedFrom updatedTo : Option String) (dir : OpDir) :
    initLoopSt total stages updatedFrom updatedTo dir
      = initLoopSt (-1) stages updatedFrom updatedTo dir := by
  unfold initLoopSt
  have h1 : ¬(total > 0) := by omega
  simp [h1]

/-- C10: the public interface accepts `total = 0` (its declared bound is
`total >= -1`), and every non-positive `total` — not only the documented
`-1` sentinel — is treated as unlimited: the remaining quota is initialized
to infinity whenever `total <= 0`, and the whole run is identical to a run
with `total = -1`, so `total = 0` mirrors the entire upstream stream rather
than fetching zero records. -/
theorem c10_nonpositive_total_unlimited :
    totalParamOk 0 = true
    ∧ ∀ total : Int, total ≤ 0 →
        ∀ (stages updatedFrom updatedTo : Option String) (dir : OpDir),
          (initLoopSt total stages updatedFrom updatedTo dir).remaining = none
          ∧ ∀ (fetch : Request → Except String Json) (opId : String)
              (mem : List (String × MemOp)) (fuel : Nat),
              clone_database_impl fetch total stages updatedFrom updatedTo opId mem fuel dir
                = clone_database_impl fetch (-1) stages updatedFrom updatedTo opId mem fuel dir := by
  refine ⟨by decide, fun total htot stages updatedFrom updatedTo dir => ⟨?_, ?_⟩⟩
  · have h1 : ¬(total > 0) := by omega
    unfold initLoopSt
    simp [h1]
  · intro fetch opId mem fuel
    have h1 : ¬(total > 0) := by omega
    have hrem : (initLoopSt (-1) stages updatedFrom updatedTo dir).remaining = none := by
      unfold initLoopSt
      simp
    have h2 : ¬((-1 : Int) > 0) := by norm_num
    unfold clone_database_impl
    rw [initLoopSt_nonpos total htot]
    have hloop := runLoop_total_irrel fetch opId total (-1) fuel
      (initLoopSt (-1) stages updatedFrom updatedTo dir) hrem
    simp only [hloop, h1, h2, if_false]

/-- C10 witness: with `total = 0` and a concrete upstream, the quota is
infinite and the run coincides with the `total = -1` run. -/
theorem c10_nonpositive_total_unlimited_witness :
    totalParamOk 0 = true
    ∧ (0 : Int) ≤ 0
    ∧ (initLoopSt 0 none none none emptyOpDir).remaining = none
    ∧ clone_database_impl upstreamEmpty 0 none none none "op" [] 5 emptyOpDir
        = clone_database_impl upstreamEmpty (-1) none none none "op" [] 5 emptyOpDir :=
  ⟨c10_nonpositive_total_unlimited.1, by decide,
   (c10_nonpositive_total_unlimited.2 0 (by decide) none none none emptyOpDir).1,
   (c10_nonpositive_total_unlimited.2 0 (by decide) none none none emptyOpDir).2
     upstreamEmpty "op" [] 5⟩

/-! ### The rotated event log (claim C9) -/

/-- A sequence of `append_event` calls on one `CloneStore` instance. -/
def runAppendEvents : CloneStoreMem × OpDir → List Json → CloneStoreMem × OpDir
  | sd, [] => sd
  | (cs, d), e :: es => runAppendEvents (append_event cs d e) es

/-- Total bytes of the lines an event log holds in segment `i`. -/
def segBytes (l : List (Nat × String)) (i : Nat) : Nat :=
  ((l.filter (fun p => p.1 = i)).map (fun p => (strBytes p.2).length)).sum

/-- Rotation-accounting invariant of a store instance and its log: every
line so far landed in a segment no later than the current one, and
`part_bytes` accounts exactly for the current segment's lines. -/
def LogInv (cs : CloneStoreMem) (d : OpDir) : Prop :=
  (∀ p ∈ d.events, p.1 ≤ cs.part_index)
  ∧ segBytes d.events cs.part_index = cs.part_bytes

/-- Per-write property of an event log: every line was preceded, within its
own segment, by fewer than the threshold bytes, and the segment indices
never decrease along the log. -/
def GoodLog (l : List (Nat × String)) : Prop :=
  ∀ pre e suf, l = pre ++ e :: suf →
    segBytes pre e.1 < part_max_bytes ∧ ∀ p ∈ pre, p.1 ≤ e.1

/-- After the pre-write rotation check, the current segment is always under
the threshold. -/
theorem rotate_if_needed_lt (cs : CloneStoreMem) :
    (rotate_if_needed cs).part_bytes < part_max_bytes := by
  unfold rotate_if_needed
  split
  · simp [part_max_bytes]
  · next h => exact Nat.lt_of_not_le (fun hle => h hle)

/-- Rotation never decreases the segment index. -/
theorem rotate_if_needed_index_ge (cs : CloneStoreMem) :
    cs.part_index ≤ (rotate_if_needed cs).part_index := by
  unfold rotate_if_needed
  split <;> simp

/-- Rotation preserves the accounting invariant. -/
theorem rotate_if_needed_LogInv (cs : CloneStoreMem) (d : OpDir) (h : LogInv cs d) :
    LogInv (rotate_if_needed cs) d := by
  unfold rotate_if_needed
  split
  · refine ⟨fun p hp => Nat.le_succ_of_le (h.1 p hp), ?_⟩
    have hnil : d.events.filter (fun p => p.1 = cs.part_index + 1) = [] := by
      refine List.filter_eq_nil_iff.mpr (fun p hp => ?_)
      have := h.1 p hp
      simp only [decide_eq_true_eq]
      omega
    simp [segBytes, hnil]
  · exact h

/-- Splitting off the last element of a list decomposition. -/
theorem snoc_decomp {α : Type} (l : List α) (x : α) (pre : List α) (e : α) (suf : List α)
    (h : l ++ [x] = pre ++ e :: suf) :
    (pre = l ∧ e = x ∧ suf = []) ∨ ∃ t, suf = t ++ [x] ∧ l = pre ++ e :: t := by
  rcases List.eq_nil_or_concat suf with hsuf | ⟨t, a, hsuf⟩
  · subst hsuf
    obtain ⟨h1, h2⟩ := List.append_inj' h (by simp)
    exact Or.inl ⟨h1.symm, by simpa using h2.symm, rfl⟩
  · subst hsuf
    rw [List.concat_eq_append] at h
    rw [show pre ++ e :: (t ++ [a]) = (pre ++ e :: t) ++ [a] by simp] at h
    obtain ⟨h1, h2⟩ := List.append_inj' h (by simp)
    refine Or.inr ⟨t, ?_, h1⟩
    simp at h2
    rw [List.concat_eq_append, h2]

/-- Segment bytes across appending one line. -/
theorem segBytes_append (l : List (Nat × String)) (q : Nat × String) (i : Nat) :
    segBytes (l ++ [q]) i
      = segBytes l i + (if q.1 = i then (strBytes q.2).length else 0) := by
  by_cases hq : q.1 = i <;> simp [segBytes, List.filter_append, hq]

/-- One `append_event` preserves the accounting invariant. -/
theorem append_event_LogInv (cs : CloneStoreMem) (d : OpDir) (e : Json)
    (h : LogInv cs d) :
    LogInv (append_event cs d e).1 (append_event cs d e).2 := by
  have hrot := rotate_if_needed_LogInv cs d h
  unfold append_event
  constructor
  · intro p hp
    simp only [List.mem_append, List.mem_singleton] at hp
    rcases hp with hp | hp
    · exact hrot.1 p hp
    · rw [hp]
  · rw [segBytes_append]
    simp [hrot.2]

/-- One `append_event` preserves the per-write property: the rotation check
runs before the write, so the written line lands in a segment holding fewer
than the threshold bytes, after lines of never-larger segment index. -/
theorem append_event_GoodLog (cs : CloneStoreMem) (d : OpDir) (e : Json)
    (h : LogInv cs d) (hg : GoodLog d.events) :
    GoodLog (append_event cs d e).2.events := by
  have hrot := rotate_if_needed_LogInv cs d h
  intro pre q suf hsplit
  simp only [append_event] at hsplit
  rcases snoc_decomp _ _ _ _ _ hsplit with ⟨hpre, hq, _⟩ | ⟨t, _, hl⟩
  · subst hpre
    rw [hq]
    refine ⟨?_, hrot.1⟩
    rw [hrot.2]
    exact rotate_if_needed_lt cs
  · exact hg pre q t hl

/-- A whole sequence of appends preserves both properties. -/
theorem runAppendEvents_inv (evs : List Json) : ∀ (cs : CloneStoreMem) (d : OpDir),
    LogInv cs d → GoodLog d.events →
    LogInv (runAppendEvents (cs, d) evs).1 (runAppendEvents (cs, d) evs).2
    ∧ GoodLog (runAppendEvents (cs, d) evs).2.events := by
  induction evs with
  | nil => exact fun cs d h hg => ⟨h, hg⟩
  | cons e es ih =>
    intro cs d h hg
    have h1 := append_event_LogInv cs d e h
    have hg1 := append_event_GoodLog cs d e h hg
    simpa [runAppendEvents] using ih (append_event cs d e).1 (append_event cs d e).2 h1 hg1

/-- C9: over any sequence of `append_event` calls on a fresh `CloneStore`,
every line lands in the then-current `part-NNNNNN` segment whose size before
that write is below the ~100 MB threshold (the rotation check runs before
the write, not after), and the segment index never decreases along the log
and never exceeds the store's current index. -/
theorem c9_event_log_rotation (evs : List Json) (pre : List (Nat × String))
    (e : Nat × String) (suf : List (Nat × String))
    (hsplit : (runAppendEvents (freshCloneStoreMem, emptyOpDir) evs).2.events
      = pre ++ e :: suf) :
    segBytes pre e.1 < part_max_bytes
    ∧ (∀ p ∈ pre, p.1 ≤ e.1)
    ∧ e.1 ≤ (runAppendEvents (freshCloneStoreMem, emptyOpDir) evs).1.part_index := by
  have base1 : LogInv freshCloneStoreMem emptyOpDir := by
    constructor
    · intro p hp
      simp [emptyOpDir] at hp
    · simp [segBytes, emptyOpDir, freshCloneStoreMem]
  have base2 : GoodLog emptyOpDir.events := by
    intro pre q suf h
    simp [emptyOpDir] at h
  have hinv := runAppendEvents_inv evs freshCloneStoreMem emptyOpDir base1 base2
  have hg := hinv.2 pre e suf hsplit
  refine ⟨hg.1, hg.2, ?_⟩
  refine hinv.1.1 e ?_
  rw [hsplit]
  exact List.mem_append_right _ (List.mem_cons_self e suf)

/-- C9 witness: appending one empty-object event to a fresh store. -/
theorem c9_event_log_rotation_witness :
    (runAppendEvents (freshCloneStoreMem, emptyOpDir) [Json.obj []]).2.events
      = [] ++ (1, "\x7b\x7d\n") :: []
    ∧ (segBytes [] 1 < part_max_bytes
       ∧ (∀ p ∈ ([] : List (Nat × String)), p.1 ≤ 1)
       ∧ 1 ≤ (runAppendEvents (freshCloneStoreMem, emptyOpDir) [Json.obj []]).1.part_index) :=
  ⟨by rfl, c9_event_log_rotation [Json.obj []] [] (1, "\x7b\x7d\n") [] (by rfl)⟩

/-! ### The frozen `updatedTo` bound (claim C5) -/

/-- Processing a page's records emits only object writes and event appends —
never a fetch, checkpoint, status or manifest operation. -/
theorem processRecords_ops_kinds (pagesNo : Nat) (cursor : Option String) (data : Json)
    (cs : CloneStoreMem) (d : OpDir) (rs : List Json) :
    ∀ op ∈ (processRecords pagesNo cursor data cs d rs).ops,
      (∃ h, op = StoreOp.writeObject h) ∨ ∃ ev, op = StoreOp.appendEvent ev := by
  induction rs generalizing cs d with
  | nil =>
    intro op hop
    simp [processRecords] at hop
  | cons rel rest ih =>
    intro op hop
    simp only [processRecords, List.mem_cons] at hop
    rcases hop with h | h | h
    · exact Or.inl ⟨_, h⟩
    · exact Or.inr ⟨_, h⟩
    · exact ih _ _ op h

/-- Shape of the operations one pass emits: the single request built from the
current state, per-record writes and appends, and possibly one checkpoint —
carrying exactly the pass's frozen `updatedTo` value — and one status write. -/
theorem iterOnce_trace_shape (fetch : Request → Except String Json) (t : Int)
    (opId : String) (s : LoopSt) :
    ∀ op ∈ (iterOnce fetch t opId s).trace,
      op = StoreOp.fetch (buildRequest s)
      ∨ (∃ h, op = StoreOp.writeObject h)
      ∨ (∃ ev, op = StoreOp.appendEvent ev)
      ∨ (∃ cp, op = StoreOp.saveCheckpoint cp
           ∧ cp.fixed_updated_to = (iterOnce fetch t opId s).state.fixed_updated_to)
      ∨ (∃ st, op = StoreOp.saveStatus st) := by
  unfold iterOnce
  by_cases hq : quotaDone s.remaining = true
  · simp only [hq, if_true]
    intro op hop
    simp at hop
  · simp only [Bool.not_eq_true] at hq
    simp only [hq, Bool.false_eq_true, if_false]
    cases hf : fetch (buildRequest s) with
    | error e =>
      intro op hop
      simp only [List.mem_singleton] at hop
      exact Or.inl hop
    | ok data =>
      by_cases he : (getReleases data).isEmpty = true
      · simp only [he, if_true]
        intro op hop
        simp only [List.mem_singleton] at hop
        exact Or.inl hop
      · simp only [Bool.not_eq_true] at he
        simp only [he, Bool.false_eq_true, if_false]
        by_cases hb : truthyStr
            (if truthyStr (asStr (jsonLookup data "nextCursor")) = true then
              asStr (jsonLookup data "nextCursor")
            else extract_cursor (asStr (safe_get2 data "links" "next"))) = true
        · simp only [hb, Bool.not_true, Bool.false_eq_true, if_false]
          intro op hop
          rcases List.mem_cons.mp hop with h | h
          · exact Or.inl h
          · rcases List.mem_append.mp h with h | h
            · rcases processRecords_ops_kinds _ _ _ _ _ _ _ h with h' | h'
              · exact Or.inr (Or.inl h')
              · exact Or.inr (Or.inr (Or.inl h'))
            · rcases List.mem_cons.mp h with h | h
              · exact Or.inr (Or.inr (Or.inr (Or.inl ⟨_, h, rfl⟩)))
              · rcases List.mem_cons.mp h with h | h
                · exact Or.inr (Or.inr (Or.inr (Or.inr ⟨_, h⟩)))
                · exact absurd h (List.not_mem_nil op)
        · simp only [Bool.not_eq_true] at hb
          simp only [hb, Bool.not_false, if_true]
          intro op hop
          rcases List.mem_cons.mp hop with h | h
          · exact Or.inl h
          · rcases processRecords_ops_kinds _ _ _ _ _ _ _ h with h' | h'
            · exact Or.inr (Or.inl h')
            · exact Or.inr (Or.inr (Or.inl h'))

/-- Once frozen, the `updatedTo` value survives one pass unchanged. -/
theorem iterOnce_state_frozen (fetch : Request → Except String Json) (t : Int)
    (opId : String) (s : LoopSt) (v : String) (hv : s.fixed_updated_to = some v) :
    (iterOnce fetch t opId s).state.fixed_updated_to = some v := by
  unfold iterOnce
  simp only [hv]
  repeat' split
  all_goals simp [hv]

/-- A resumed run initializes its frozen `updatedTo` from the checkpoint. -/
theorem initLoopSt_resume_fixed (total : Int) (stages updatedFrom updatedTo : Option String)
    (dir : OpDir) (cp : Checkpoint) (hcp : load_checkpoint dir = some cp) :
    (initLoopSt total stages updatedFrom updatedTo dir).fixed_updated_to
      = cp.fixed_updated_to := by
  simp only [initLoopSt, hcp]

/-- Over a whole loop run from a state whose `updatedTo` bound is frozen to
a non-empty value: every request carries it, every checkpoint records it,
and the final state keeps it. -/
theorem runLoop_frozen_updatedTo (fetch : Request → Except String Json) (total : Int)
    (opId : String) : ∀ (fuel : Nat) (s : LoopSt) (v : String),
    s.fixed_updated_to = some v → v ≠ "" →
    (∀ req, StoreOp.fetch req ∈ (runLoop fetch total opId fuel s).trace →
        req.updatedTo = some v)
    ∧ (∀ cp, StoreOp.saveCheckpoint cp ∈ (runLoop fetch total opId fuel s).trace →
        cp.fixed_updated_to = some v)
    ∧ (runLoop fetch total opId fuel s).state.fixed_updated_to = some v := by
  intro fuel
  induction fuel with
  | zero =>
    intro s v hv hne
    refine ⟨?_, ?_, by simpa [runLoop] using hv⟩
    · intro req h
      simp [runLoop] at h
    · intro cp h
      simp [runLoop] at h
  | succ fuel ih =>
    intro s v hv hne
    have hstate := iterOnce_state_frozen fetch total opId s v hv
    have hshape := iterOnce_trace_shape fetch total opId s
    have hreq : (buildRequest s).updatedTo = some v := by
      simp [buildRequest, hv, truthyStr, hne]
    have hfetchmem : ∀ req, StoreOp.fetch req ∈ (iterOnce fetch total opId s).trace →
        req.updatedTo = some v := by
      intro req hmem
      rcases hshape _ hmem with h | ⟨x, h⟩ | ⟨x, h⟩ | ⟨x, h, _⟩ | ⟨x, h⟩
      · injection h with h'
        rw [h']
        exact hreq
      · simp at h
      · simp at h
      · simp at h
      · simp at h
    have hcpmem : ∀ cp, StoreOp.saveCheckpoint cp ∈ (iterOnce fetch total opId s).trace →
        cp.fixed_updated_to = some v := by
      intro cp hmem
      rcases hshape _ hmem with h | ⟨x, h⟩ | ⟨x, h⟩ | ⟨x, h, hfx⟩ | ⟨x, h⟩
      · simp at h
      · simp at h
      · simp at h
      · injection h with h'
        rw [h']
        exact hfx.trans hstate
      · simp at h
    simp only [runLoop]
    cases hstep : (iterOnce fetch total opId s).step with
    | brk => exact ⟨hfetchmem, hcpmem, hstate⟩
    | fail e => exact ⟨hfetchmem, hcpmem, hstate⟩
    | cont =>
      obtain ⟨ih1, ih2, ih3⟩ := ih (iterOnce fetch total opId s).state v hstate hne
      refine ⟨?_, ?_, ih3⟩
      · intro req hmem
        rcases List.mem_append.mp hmem with h | h
        · exact hfetchmem req h
        · exact ih1 req h
      · intro cp hmem
        rcases List.mem_append.mp hmem with h | h
        · exact hcpmem cp h
        · exact ih2 cp h

/-- C5: within one operation, once the `updatedTo` bound is frozen to a
(non-empty) value `v` — supplied by the caller, restored from a checkpoint
(final conjunct: a resumed run reuses the persisted value unchanged), or
derived on the first fetched page from the response's echoed URI or its
`next` link (fourth conjunct: the pass that freezes a value records exactly
that value in the checkpoint it saves) — every subsequent outgoing upstream
request of the loop carries exactly `some v`, and every checkpoint the loop
persists records `fixed_updated_to = some v`. -/
theorem c5_frozen_updated_to (fetch : Request → Except String Json) (total : Int)
    (opId : String) (fuel : Nat) (s : LoopSt) (v : String)
    (hv : s.fixed_updated_to = some v) (hne : v ≠ "") :
    (∀ req, StoreOp.fetch req ∈ (runLoop fetch total opId fuel s).trace →
        req.updatedTo = some v)
    ∧ (∀ cp, StoreOp.saveCheckpoint cp ∈ (runLoop fetch total opId fuel s).trace →
        cp.fixed_updated_to = some v)
    ∧ (runLoop fetch total opId fuel s).state.fixed_updated_to = some v
    ∧ (∀ (s' : LoopSt) (cp : Checkpoint),
        StoreOp.saveCheckpoint cp ∈ (iterOnce fetch total opId s').trace →
        cp.fixed_updated_to = (iterOnce fetch total opId s').state.fixed_updated_to)
    ∧ (∀ (stages updatedFrom updatedTo : Option String) (dir : OpDir) (cp : Checkpoint),
        load_checkpoint dir = some cp →
        (initLoopSt total stages updatedFrom updatedTo dir).fixed_updated_to
          = cp.fixed_updated_to) := by
  obtain ⟨h1, h2, h3⟩ := runLoop_frozen_updatedTo fetch total opId fuel s v hv hne
  refine ⟨h1, h2, h3, ?_, ?_⟩
  · intro s' cp hmem
    rcases iterOnce_trace_shape fetch total opId s' _ hmem with
      h | ⟨x, h⟩ | ⟨x, h⟩ | ⟨x, h, hfx⟩ | ⟨x, h⟩
    · simp at h
    · simp at h
    · simp at h
    · injection h with h'
      rw [h']
      exact hfx
    · simp at h
  · intro stages updatedFrom updatedTo dir cp hcp
    exact initLoopSt_resume_fixed total stages updatedFrom updatedTo dir cp hcp

/-- C5 witness: a caller-supplied bound on a fresh operation. -/
theorem c5_frozen_updated_to_witness :
    (initLoopSt 1 none none (some "2024-01-01T00:00:00") emptyOpDir).fixed_updated_to
      = some "2024-01-01T00:00:00"
    ∧ ("2024-01-01T00:00:00" : String) ≠ ""
    ∧ ((∀ req, StoreOp.fetch req ∈ (runLoop upstreamEmpty 1 "op" 2
          (initLoopSt 1 none none (some "2024-01-01T00:00:00") emptyOpDir)).trace →
            req.updatedTo = some "2024-01-01T00:00:00")
       ∧ (∀ cp, StoreOp.saveCheckpoint cp ∈ (runLoop upstreamEmpty 1 "op" 2
            (initLoopSt 1 none none (some "2024-01-01T00:00:00") emptyOpDir)).trace →
              cp.fixed_updated_to = some "2024-01-01T00:00:00")
       ∧ (runLoop upstreamEmpty 1 "op" 2
            (initLoopSt 1 none none (some "2024-01-01T00:00:00") emptyOpDir)).state.fixed_updated_to
            = some "2024-01-01T00:00:00"
       ∧ (∀ (s' : LoopSt) (cp : Checkpoint),
            StoreOp.saveCheckpoint cp ∈ (iterOnce upstreamEmpty 1 "op" s').trace →
            cp.fixed_updated_to = (iterOnce upstreamEmpty 1 "op" s').state.fixed_updated_to)
       ∧ (∀ (stages updatedFrom updatedTo : Option String) (dir : OpDir) (cp : Checkpoint),
            load_checkpoint dir = some cp →
            (initLoopSt 1 stages updatedFrom updatedTo dir).fixed_updated_to
              = cp.fixed_updated_to)) :=
  ⟨by rfl, by decide,
   c5_frozen_updated_to upstreamEmpty 1 "op" 2
     (initLoopSt 1 none none (some "2024-01-01T00:00:00") emptyOpDir)
     "2024-01-01T00:00:00" (by rfl) (by decide)⟩

/-! ### Checkpoint-after-commit ordering (claim C1) -/

/-- The event appended for a record carries that record's content hash. -/
theorem mkEvent_content_hash (pagesNo : Nat) (cursor : Option String) (data rel : Json) :
    jsonLookup (mkEvent pagesNo cursor data rel) "content_hash"
      = some (.str (content_hash_sha256 rel)) := by
  rfl

/-- The event appended for a record carries its page number. -/
theorem mkEvent_page (pagesNo : Nat) (cursor : Option String) (data rel : Json) :
    jsonLookup (mkEvent pagesNo cursor data rel) "page"
      = some (.num (Int.ofNat pagesNo)) := by
  rfl

/-- Every record a page-processing pass commits is tagged with that page. -/
theorem processRecords_committed_pages (pagesNo : Nat) (cursor : Option String) (data : Json) :
    ∀ (cs : CloneStoreMem) (d : OpDir) (rs : List Json),
    ∀ q ∈ (processRecords pagesNo cursor data cs d rs).committed, q.1 = pagesNo := by
  intro cs d rs
  induction rs generalizing cs d with
  | nil =>
    intro q hq
    simp [processRecords] at hq
  | cons rel rest ih =>
    intro q hq
    simp only [processRecords, List.mem_cons] at hq
    rcases hq with h | h
    · rw [h]
    · exact ih _ _ q h

/-- Every record a page-processing pass commits has its object write and its
event append among the pass's emitted operations. -/
theorem processRecords_commits (pagesNo : Nat) (cursor : Option String) (data : Json) :
    ∀ (cs : CloneStoreMem) (d : OpDir) (rs : List Json) (r : Json) (p : Nat),
    (p, r) ∈ (processRecords pagesNo cursor data cs d rs).committed →
      StoreOp.writeObject (content_hash_sha256 r) ∈ (processRecords pagesNo cursor data cs d rs).ops
      ∧ StoreOp.appendEvent (mkEvent pagesNo cursor data r)
          ∈ (processRecords pagesNo cursor data cs d rs).ops := by
  intro cs d rs
  induction rs generalizing cs d with
  | nil =>
    intro r p h
    simp [processRecords] at h
  | cons rel rest ih =>
    intro r p h
    simp only [processRecords, List.mem_cons] at h ⊢
    rcases h with h | h
    · have hr : r = rel := congrArg Prod.snd h
      rw [hr]
      exact ⟨Or.inl rfl, Or.inr (Or.inl rfl)⟩
    · obtain ⟨hw, ha⟩ := ih _ _ r p h
      exact ⟨Or.inr (Or.inr hw), Or.inr (Or.inr ha)⟩

/-- One pass, as claim C1 needs it: (a) all records it commits belong to the
single page it fetched, page `s.pages + 1`; (b) any checkpoint it persists
describes that page, and is positioned in the pass's trace after the object
write and the event append of every record the pass committed; (c) a
continuing pass leaves `pages = s.pages + 1`; (d) `pages` never decreases. -/
theorem iterOnce_c1_spec (fetch : Request → Except String Json) (t : Int)
    (opId : String) (s : LoopSt) :
    (∀ q ∈ (iterOnce fetch t opId s).committed, q.1 = s.pages + 1)
    ∧ (∀ i cp, (iterOnce fetch t opId s).trace.get? i = some (.saveCheckpoint cp) →
         cp.pages = s.pages + 1
         ∧ ∀ r p, (p, r) ∈ (iterOnce fetch t opId s).committed →
             StoreOp.writeObject (content_hash_sha256 r) ∈ (iterOnce fetch t opId s).trace.take i
             ∧ ∃ ev, StoreOp.appendEvent ev ∈ (iterOnce fetch t opId s).trace.take i
                 ∧ jsonLookup ev "content_hash" = some (.str (content_hash_sha256 r))
                 ∧ jsonLookup ev "page" = some (.num (Int.ofNat (s.pages + 1))))
    ∧ ((iterOnce fetch t opId s).step = .cont → (iterOnce fetch t opId s).state.pages = s.pages + 1)
    ∧ s.pages ≤ (iterOnce fetch t opId s).state.pages := by
  unfold iterOnce
  by_cases hq : quotaDone s.remaining = true
  · simp only [hq, if_true]
    refine ⟨?_, ?_, ?_, Nat.le_refl _⟩
    · intro q hq'
      simp at hq'
    · intro i cp h
      simp at h
    · intro h
      simp at h
  · simp only [Bool.not_eq_true] at hq
    simp only [hq, Bool.false_eq_true, if_false]
    cases hf : fetch (buildRequest s) with
    | error e =>
      refine ⟨?_, ?_, ?_, Nat.le_refl _⟩
      · intro q hq'
        simp at hq'
      · intro i cp h
        rcases i with _ | i <;> simp at h
      · intro h
        simp at h
    | ok data =>
      by_cases he : (getReleases data).isEmpty = true
      · simp only [he, if_true]
        refine ⟨?_, ?_, ?_, Nat.le_refl _⟩
        · intro q hq'
          simp at hq'
        · intro i cp h
          rcases i with _ | i <;> simp at h
        · intro h
          simp at h
      · simp only [Bool.not_eq_true] at he
        simp only [he, Bool.false_eq_true, if_false]
        by_cases hb : truthyStr
            (if truthyStr (asStr (jsonLookup data "nextCursor")) = true then
              asStr (jsonLookup data "nextCursor")
            else extract_cursor (asStr (safe_get2 data "links" "next"))) = true
        · -- a next cursor exists: the pass checkpoints after the page's records
          simp only [hb, Bool.not_true, Bool.false_eq_true, if_false]
          refine ⟨?_, ?_, ?_, Nat.le_succ _⟩
          · intro q hq'
            exact processRecords_committed_pages _ _ _ _ _ _ q hq'
          · intro i cp h
            have hkinds := processRecords_ops_kinds (s.pages + 1) s.cursor data s.cs s.dir
              (match s.remaining with
               | none => getReleases data
               | some r => List.take r.toNat (getReleases data))
            have hcommits := processRecords_commits (s.pages + 1) s.cursor data s.cs s.dir
              (match s.remaining with
               | none => getReleases data
               | some r => List.take r.toNat (getReleases data))
            generalize hL : (processRecords (s.pages + 1) s.cursor data s.cs s.dir
              (match s.remaining with
               | none => getReleases data
               | some r => List.take r.toNat (getReleases data))).ops = L at h ⊢
            rw [hL] at hkinds
            by_cases hi : i < (StoreOp.fetch (buildRequest s) :: L).length
            · rw [List.get?_append hi] at h
              have hmem := List.get?_mem h
              rcases List.mem_cons.mp hmem with h' | h'
              · simp at h'
              · rcases hkinds _ h' with ⟨x, h''⟩ | ⟨x, h''⟩ <;> simp at h''
            · push_neg at hi
              rw [List.get?_append_right hi] at h
              rcases hk : i - (StoreOp.fetch (buildRequest s) :: L).length with _ | k
              · rw [hk, List.get?_cons_zero, Option.some.injEq] at h
                rw [StoreOp.saveCheckpoint.injEq] at h
                subst h
                refine ⟨rfl, ?_⟩
                intro r p hr
                obtain ⟨hw, ha⟩ := hcommits r p hr
                rw [hL] at hw ha
                rw [List.take_append_eq_append_take, List.take_of_length_le hi]
                refine ⟨List.mem_append_left _ (List.mem_cons_of_mem _ hw),
                  mkEvent (s.pages + 1) s.cursor data r,
                  List.mem_append_left _ (List.mem_cons_of_mem _ ha),
                  mkEvent_content_hash _ _ _ _, mkEvent_page _ _ _ _⟩
              · rw [hk, List.get?_cons_succ] at h
                rcases k with _ | k <;> simp at h
          · exact fun _ => trivial
        · -- no further cursor: the pass breaks before any checkpoint
          simp only [Bool.not_eq_true] at hb
          simp only [hb, Bool.not_false, if_true]
          refine ⟨?_, ?_, ?_, Nat.le_succ _⟩
          · intro q hq'
            exact processRecords_committed_pages _ _ _ _ _ _ q hq'
          · intro i cp h
            have hmem := List.get?_mem h
            rcases List.mem_cons.mp hmem with h' | h'
            · simp at h'
            · rcases processRecords_ops_kinds _ _ _ _ _ _ _ h' with ⟨x, h''⟩ | ⟨x, h''⟩ <;>
                simp at h''
          · intro h
            simp at h

/-- Every record a loop run commits belongs to a page later than the one
the starting state had reached. -/
theorem runLoop_committed_pages (fetch : Request → Except String Json) (t : Int)
    (opId : String) : ∀ (fuel : Nat) (s : LoopSt),
    ∀ q ∈ (runLoop fetch t opId fuel s).committed, s.pages < q.1 := by
  intro fuel
  induction fuel with
  | zero =>
    intro s q h
    simp [runLoop] at h
  | succ fuel ih =>
    intro s q h
    obtain ⟨hA, _, hcont, _⟩ := iterOnce_c1_spec fetch t opId s
    simp only [runLoop] at h
    rcases hstep : (iterOnce fetch t opId s).step with _ | _ | e <;>
      simp only [hstep] at h
    · have := hA q h
      omega
    · rcases List.mem_append.mp h with h' | h'
      · have := hA q h'
        omega
      · have h1 := ih (iterOnce fetch t opId s).state q h'
        have h2 := hcont hstep
        omega
    · have := hA q h
      omega

/-- Every checkpoint a loop run persists describes a page later than the one
the starting state had reached. -/
theorem runLoop_cp_pages (fetch : Request → Except String Json) (t : Int)
    (opId : String) : ∀ (fuel : Nat) (s : LoopSt) (i : Nat) (cp : Checkpoint),
    (runLoop fetch t opId fuel s).trace.get? i = some (.saveCheckpoint cp) →
    s.pages < cp.pages := by
  intro fuel
  induction fuel with
  | zero =>
    intro s i cp h
    simp [runLoop] at h
  | succ fuel ih =>
    intro s i cp h
    obtain ⟨_, hB, hcont, _⟩ := iterOnce_c1_spec fetch t opId s
    simp only [runLoop] at h
    rcases hstep : (iterOnce fetch t opId s).step with _ | _ | e <;>
      simp only [hstep] at h
    · have := (hB i cp h).1
      omega
    · by_cases hi : i < (iterOnce fetch t opId s).trace.length
      · rw [List.get?_append hi] at h
        have := (hB i cp h).1
        omega
      · push_neg at hi
        rw [List.get?_append_right hi] at h
        have h1 := ih (iterOnce fetch t opId s).state _ _ h
        have h2 := hcont hstep
        omega
    · have := (hB i cp h).1
      omega

/-- C1: in any run of the clone loop, for every persisted checkpoint — say
it describes page `N` and sits at position `i` of the run's effect trace —
and every record the run committed for page `N`, both that record's object
write (`write_object_if_missing`) and its event append (`append_event`,
whose event carries the record's content hash and the page number `N`)
occur strictly before position `i`: the checkpoint for a page is persisted
only after every record of that page has been committed to the object store
and the event log. -/
theorem c1_checkpoint_after_page_commits (fetch : Request → Except String Json)
    (total : Int) (opId : String) : ∀ (fuel : Nat) (s : LoopSt) (i : Nat)
    (cp : Checkpoint) (r : Json),
    (runLoop fetch total opId fuel s).trace.get? i = some (.saveCheckpoint cp) →
    (cp.pages, r) ∈ (runLoop fetch total opId fuel s).committed →
    StoreOp.writeObject (content_hash_sha256 r) ∈ (runLoop fetch total opId fuel s).trace.take i
    ∧ ∃ ev, StoreOp.appendEvent ev ∈ (runLoop fetch total opId fuel s).trace.take i
        ∧ jsonLookup ev "content_hash" = some (.str (content_hash_sha256 r))
        ∧ jsonLookup ev "page" = some (.num (Int.ofNat cp.pages)) := by
  intro fuel
  induction fuel with
  | zero =>
    intro s i cp r h _
    simp [runLoop] at h
  | succ fuel ih =>
    intro s i cp r h hr
    obtain ⟨hA, hB, hcont, _⟩ := iterOnce_c1_spec fetch total opId s
    simp only [runLoop] at h hr ⊢
    rcases hstep : (iterOnce fetch total opId s).step with _ | _ | e <;>
      simp only [hstep] at h hr ⊢
    · obtain ⟨hpages, hrec⟩ := hB i cp h
      obtain ⟨hw, ev, ha, hch, hpg⟩ := hrec r cp.pages hr
      refine ⟨hw, ev, ha, hch, ?_⟩
      rw [hpages]
      exact hpg
    · by_cases hi : i < (iterOnce fetch total opId s).trace.length
      · rw [List.get?_append hi] at h
        obtain ⟨hpages, hrec⟩ := hB i cp h
        have hrmem : (cp.pages, r) ∈ (iterOnce fetch total opId s).committed := by
          rcases List.mem_append.mp hr with h' | h'
          · exact h'
          · exfalso
            have h1 := runLoop_committed_pages fetch total opId fuel
              (iterOnce fetch total opId s).state _ h'
            have h2 := hcont hstep
            simp only [h2] at h1
            omega
        obtain ⟨hw, ev, ha, hch, hpg⟩ := hrec r cp.pages hrmem
        rw [List.take_append_eq_append_take]
        refine ⟨List.mem_append_left _ hw, ev, List.mem_append_left _ ha, hch, ?_⟩
        rw [hpages]
        exact hpg
      · push_neg at hi
        rw [List.get?_append_right hi] at h
        have hcp := runLoop_cp_pages fetch total opId fuel (iterOnce fetch total opId s).state _ _ h
        have h2 := hcont hstep
        have hrmem : (cp.pages, r)
            ∈ (runLoop fetch total opId fuel (iterOnce fetch total opId s).state).committed := by
          rcases List.mem_append.mp hr with h' | h'
          · exfalso
            have h1 := hA _ h'
            simp only [h2] at hcp
            simp at h1
            omega
          · exact h'
        obtain ⟨hw, ev, ha, hch, hpg⟩ := ih (iterOnce fetch total opId s).state _ cp r h hrmem
        rw [List.take_append_eq_append_take, List.take_of_length_le hi]
        exact ⟨List.mem_append_right _ hw, ev, List.mem_append_right _ ha, hch, hpg⟩
    · obtain ⟨hpages, hrec⟩ := hB i cp h
      obtain ⟨hw, ev, ha, hch, hpg⟩ := hrec r cp.pages hr
      refine ⟨hw, ev, ha, hch, ?_⟩
      rw [hpages]
      exact hpg

/-- C1 witness: a one-page run whose page-1 checkpoint sits at trace
position 3, after the record's object write and event append. -/
theorem c1_checkpoint_after_page_commits_witness :
    (runLoop upstreamTwoPages 1 "op" 3 (initLoopSt 1 none none none emptyOpDir)).trace.get? 3
      = some (.saveCheckpoint ⟨"op", some "c2", 1, 1, 1, 1, 1, none, none, none⟩)
    ∧ ((⟨"op", some "c2", 1, 1, 1, 1, 1, none, none, none⟩ : Checkpoint).pages, rec1)
        ∈ (runLoop upstreamTwoPages 1 "op" 3 (initLoopSt 1 none none none emptyOpDir)).committed
    ∧ (StoreOp.writeObject (content_hash_sha256 rec1)
        ∈ (runLoop upstreamTwoPages 1 "op" 3 (initLoopSt 1 none none none emptyOpDir)).trace.take 3
       ∧ ∃ ev, StoreOp.appendEvent ev
            ∈ (runLoop upstreamTwoPages 1 "op" 3 (initLoopSt 1 none none none emptyOpDir)).trace.take 3
          ∧ jsonLookup ev "content_hash" = some (.str (content_hash_sha256 rec1))
          ∧ jsonLookup ev "page" = some (.num (Int.ofNat
              (⟨"op", some "c2", 1, 1, 1, 1, 1, none, none, none⟩ : Checkpoint).pages))) := by
  have hcp : (runLoop upstreamTwoPages 1 "op" 3 (initLoopSt 1 none none none emptyOpDir)).trace.get? 3
      = some (.saveCheckpoint ⟨"op", some "c2", 1, 1, 1, 1, 1, none, none, none⟩) := by
    rfl
  have hmem : ((⟨"op", some "c2", 1, 1, 1, 1, 1, none, none, none⟩ : Checkpoint).pages, rec1)
      ∈ (runLoop upstreamTwoPages 1 "op" 3 (initLoopSt 1 none none none emptyOpDir)).committed := by
    have hc : (runLoop upstreamTwoPages 1 "op" 3 (initLoopSt 1 none none none emptyOpDir)).committed
        = [(1, rec1)] := by
      rfl
    rw [hc]
    exact List.mem_cons_self _ _
  exact ⟨hcp, hmem, c1_checkpoint_after_page_commits upstreamTwoPages 1 "op" 3
    (initLoopSt 1 none none none emptyOpDir) 3 _ rec1 hcp hmem⟩

/-- C2 (divergence witness): with `total = 1` and a two-page upstream, the
uninterrupted run stops at the quota after page 1 (`pages = 1`,
`received_raw = 1`, one committed record) and never fetches page 2; killing
the run right after the page-1 checkpoint is persisted and re-invoking with
the same operation id does not reproduce those terminal counters — because
line 371 re-initializes `remaining` to the full `total` instead of
`total - processed_total` from the checkpoint, the resumed run fetches the
page at cursor `c2`, commits one more record, and terminates with
`pages = 2`, `received_raw = 2`, a `processed_total` of 2 exceeding the
quota of 1. -/
theorem c2_resume_overshoots_quota :
    (clone_database_impl upstreamTwoPages 1 none none none "op" [] 10 emptyOpDir).out
      = .ok ⟨"op", 1, 1, 1, 1⟩
    ∧ (clone_database_impl upstreamTwoPages 1 none none none "op" [] 10 emptyOpDir).committed
      = [(1, rec1)]
    ∧ (clone_database_impl upstreamTwoPages 1 none none none "op" [] 1 emptyOpDir).out
      = .interrupted
    ∧ (clone_database_impl upstreamTwoPages 1 none none none "op" [] 1 emptyOpDir).dir.checkpointFile
      = some ⟨"op", some "c2", 1, 1, 1, 1, 1, none, none, none⟩
    ∧ (clone_database_impl upstreamTwoPages 1 none none none "op" [] 10
        (clone_database_impl upstreamTwoPages 1 none none none "op" [] 1 emptyOpDir).dir).out
      = .ok ⟨"op", 2, 2, 2, 2⟩
    ∧ (clone_database_impl upstreamTwoPages 1 none none none "op" [] 10
        (clone_database_impl upstreamTwoPages 1 none none none "op" [] 1 emptyOpDir).dir).committed
      = [(2, rec2)] := by
  refine ⟨?_, ?_, ?_, ?_, ?_, ?_⟩ <;> rfl
